import Mathlib

/-!
# Verification of the FirAgent case-record store and extraction pipeline

Shallow embedding of the FirAgent repository's core:

* `shared/utils.ts` — `generateFirId` (identifier generator);
* `server/storage.ts` (`DatabaseStorage`) — the record store: `createFir`,
  `updateFir`, `updateFirStatus`, `createStatusUpdate`, `getStatusUpdates`,
  `searchFirs`, `getFirCount`, `getUserNotifications`, `getMonthlyStats`;
* `server/routes.ts` — the `POST /api/gemini/process` extraction endpoint
  (greedy brace-span scan, `JSON.parse`, `geminiResponseSchema` validation,
  bounded retry loop);
* `shared/schema.ts` — the table shapes and `geminiResponseSchema`.

Timestamps produced by the store are modeled by a strictly monotone natural
clock (each `new Date()` reads and advances it); the analytics code that
builds calendar `Date` values is modeled with an explicit calendar time at
the store's microsecond granularity (Postgres `timestamp`), against which
the query bounds — JavaScript `Date`s — sit at millisecond precision.
-/

namespace FirAgent

/-! ## Generic list machinery (insertion sort used to model SQL ORDER BY) -/

/-- Insert `x` into `l`, keeping elements for which `le` holds in front. -/
def insertSorted {α : Type} (le : α → α → Bool) (x : α) : List α → List α
  | [] => [x]
  | y :: ys => if le x y then x :: y :: ys else y :: insertSorted le x ys

/-- Insertion sort by the boolean relation `le`; models SQL `ORDER BY`. -/
def sortList {α : Type} (le : α → α → Bool) (l : List α) : List α :=
  l.foldr (insertSorted le) []

theorem mem_insertSorted {α : Type} (le : α → α → Bool) (x a : α) (l : List α) :
    a ∈ insertSorted le x l ↔ a = x ∨ a ∈ l := by
  induction l with
  | nil => simp [insertSorted]
  | cons y ys ih =>
    simp only [insertSorted]
    by_cases h : le x y = true
    · simp [h]
    · simp only [Bool.not_eq_true] at h
      simp [h, ih]
      tauto

theorem mem_sortList {α : Type} (le : α → α → Bool) (a : α) (l : List α) :
    a ∈ sortList le l ↔ a ∈ l := by
  induction l with
  | nil => simp [sortList]
  | cons y ys ih =>
    simp only [sortList, List.foldr_cons] at *
    rw [mem_insertSorted]
    simp [ih]

theorem insertSorted_of_le_head {α : Type} (le : α → α → Bool) (x : α) (l : List α)
    (h : ∀ a ∈ l, le x a = true) : insertSorted le x l = x :: l := by
  cases l with
  | nil => rfl
  | cons y ys => simp [insertSorted, h y (by simp)]

/-- Sorting a list that is already pairwise ordered leaves it unchanged. -/
theorem sortList_eq_of_pairwise {α : Type} (le : α → α → Bool) (l : List α)
    (h : l.Pairwise (fun a b => le a b = true)) : sortList le l = l := by
  induction l with
  | nil => rfl
  | cons y ys ih =>
    simp only [sortList, List.foldr_cons] at *
    rw [List.pairwise_cons] at h
    rw [ih h.2]
    exact insertSorted_of_le_head le y ys h.1

/-! ## Identifier generator (`shared/utils.ts`, `generateFirId`)

`generateFirId` renders `FIR-` + `format(new Date(), "yyyyMMdd")` + `-` +
`Math.floor(Math.random() * 900) + 100`.  The current date is modeled by the
`(year, month, day)` parameters; `Math.floor(Math.random() * 900)` is modeled
by a parameter `r < 900`.  `format`'s `yyyy`/`MM`/`dd` tokens zero-pad the
year to four digits and the month and day to two digits. -/

/-- Decimal digit character for `n < 10`. -/
def digitChar (n : Nat) : Char := Char.ofNat (48 + n)

/-- Decimal digits of `n`, most significant first (fuel-driven). -/
def natDigitsAux : Nat → Nat → List Char
  | 0, _ => []
  | fuel + 1, n =>
    if n < 10 then [digitChar n]
    else natDigitsAux fuel (n / 10) ++ [digitChar (n % 10)]

/-- Decimal digit string of `n`, as a character list. -/
def natDigits (n : Nat) : List Char := natDigitsAux (n + 1) n

/-- Zero-pad the decimal rendering of `n` on the left to width `w`
(the behavior of date-fns format tokens `yyyy` / `MM` / `dd`). -/
def padDigits (w n : Nat) : List Char :=
  List.replicate (w - (natDigits n).length) '0' ++ natDigits n

/-- `format(date, "yyyyMMdd")`: four-digit year, two-digit month and day. -/
def formatYyyyMmDd (year month day : Nat) : List Char :=
  padDigits 4 year ++ padDigits 2 month ++ padDigits 2 day

/-- `generateFirId` from `shared/utils.ts`: the current date is `(year, month,
day)` and `r = Math.floor(Math.random() * 900)` (so `r < 900`); the suffix is
`r + 100`. -/
def generateFirId (year month day r : Nat) : String :=
  "FIR-" ++ String.mk (formatYyyyMmDd year month day) ++ "-" ++
    String.mk (natDigits (r + 100))

/-- Decider for the anchored pattern `FIR-\d\x7b8\x7d-\d\x7b3\x7d`. -/
def firIdPatternOk (s : String) : Bool :=
  match s.data with
  | 'F' :: 'I' :: 'R' :: '-' :: rest =>
    ((rest.take 8).length == 8 && (rest.take 8).all (·.isDigit)) &&
      (match rest.drop 8 with
       | '-' :: suffix => suffix.length == 3 && suffix.all (·.isDigit)
       | _ => false)
  | _ => false

theorem digitChar_isDigit {n : Nat} (h : n < 10) : (digitChar n).isDigit = true := by
  interval_cases n <;> decide

theorem natDigitsAux_all_isDigit :
    ∀ fuel n, n < fuel → (natDigitsAux fuel n).all (·.isDigit) = true := by
  intro fuel
  induction fuel with
  | zero => intro n h; omega
  | succ f ih =>
    intro n h
    simp only [natDigitsAux]
    by_cases h10 : n < 10
    · simp [h10, digitChar_isDigit h10]
    · have hdiv : n / 10 < f := by omega
      simp only [if_neg h10, List.all_append, Bool.and_eq_true]
      refine And.intro (ih _ hdiv) ?_
      simp [digitChar_isDigit (Nat.mod_lt n (by omega))]

theorem natDigits_all_isDigit (n : Nat) : (natDigits n).all (·.isDigit) = true :=
  natDigitsAux_all_isDigit (n + 1) n (Nat.lt_succ_self n)

theorem natDigitsAux_length_le :
    ∀ k fuel n, n < fuel → n < 10 ^ k → 1 ≤ k → (natDigitsAux fuel n).length ≤ k := by
  intro k
  induction k with
  | zero => intro fuel n _ _ h; omega
  | succ k ih =>
    intro fuel n hfuel hp _
    cases fuel with
    | zero => omega
    | succ f =>
      simp only [natDigitsAux]
      by_cases h10 : n < 10
      · simp [h10]
      · have hk1 : 1 ≤ k := by
          by_contra hk
          have : k = 0 := by omega
          subst this
          simp [pow_succ] at hp
          omega
        have hdivf : n / 10 < f := by omega
        have hdivp : n / 10 < 10 ^ k := by
          rw [Nat.div_lt_iff_lt_mul (by omega)]
          calc n < 10 ^ (k + 1) := hp
          _ = 10 ^ k * 10 := by ring
        simp only [if_neg h10, List.length_append, List.length_cons, List.length_nil]
        have := ih f (n / 10) hdivf hdivp hk1
        omega

theorem natDigits_length_le {k n : Nat} (hp : n < 10 ^ k) (hk : 1 ≤ k) :
    (natDigits n).length ≤ k :=
  natDigitsAux_length_le k (n + 1) n (Nat.lt_succ_self n) hp hk

theorem natDigits_length_pos (n : Nat) : 1 ≤ (natDigits n).length := by
  unfold natDigits natDigitsAux
  by_cases h10 : n < 10
  · simp [h10]
  · simp [h10]

theorem padDigits_length {w n : Nat} (h : (natDigits n).length ≤ w) :
    (padDigits w n).length = w := by
  simp only [padDigits, List.length_append, List.length_replicate]
  omega

theorem padDigits_all_isDigit (w n : Nat) : (padDigits w n).all (·.isDigit) = true := by
  simp only [padDigits, List.all_append, Bool.and_eq_true]
  refine And.intro ?_ (natDigits_all_isDigit n)
  simp only [List.all_eq_true]
  intro c hc
  rw [List.eq_of_mem_replicate hc]
  decide

/-- The three decimal digits of a number in `[100, 999]`. -/
theorem natDigits_three {n : Nat} (h1 : 100 ≤ n) (h2 : n ≤ 999) :
    natDigits n = [digitChar (n / 100), digitChar (n / 10 % 10), digitChar (n % 10)] := by
  have hn1 : ¬ n < 10 := by omega
  have hn2 : ¬ n / 10 < 10 := by omega
  have hn3 : n / 10 / 10 < 10 := by omega
  unfold natDigits
  obtain ⟨m, hm⟩ : ∃ m, n + 1 = m + 3 := ⟨n - 2, by omega⟩
  rw [hm]
  have hf2 : n / 10 < m + 2 := by omega
  have hf1 : n / 10 / 10 < m + 1 := by omega
  simp only [natDigitsAux, if_neg hn1, if_neg hn2, if_pos hn3]
  have : n / 10 / 10 = n / 100 := by omega
  rw [this]
  simp

theorem string_mk_append (a b : List Char) :
    String.mk a ++ String.mk b = String.mk (a ++ b) := rfl

theorem formatYyyyMmDd_length {y m d : Nat}
    (hy : y ≤ 9999) (hm : m ≤ 99) (hd : d ≤ 99) :
    (formatYyyyMmDd y m d).length = 8 := by
  have l4 : (padDigits 4 y).length = 4 :=
    padDigits_length (natDigits_length_le (by omega) (by omega))
  have l2m : (padDigits 2 m).length = 2 :=
    padDigits_length (natDigits_length_le (by omega) (by omega))
  have l2d : (padDigits 2 d).length = 2 :=
    padDigits_length (natDigits_length_le (by omega) (by omega))
  simp only [formatYyyyMmDd, List.length_append, l4, l2m, l2d]

theorem formatYyyyMmDd_all_isDigit (y m d : Nat) :
    (formatYyyyMmDd y m d).all (·.isDigit) = true := by
  simp only [formatYyyyMmDd, List.all_append, Bool.and_eq_true]
  exact ⟨⟨padDigits_all_isDigit 4 y, padDigits_all_isDigit 2 m⟩, padDigits_all_isDigit 2 d⟩

/-- **C9.** Every identifier the generator produces matches
`FIR-\d\x7b8\x7d-\d\x7b3\x7d`: literal `FIR-`, eight digits for the current
date, a hyphen, and a three-digit suffix from the fixed range `[100, 999]`.
Hypotheses delimit the generator's actual inputs: a representable current
date (`year ≤ 9999`, two-digit month and day) and
`r = Math.floor(Math.random() * 900) < 900`. -/
theorem generateFirId_matches_pattern (y m d r : Nat)
    (hy : y ≤ 9999) (hm : m ≤ 99) (hd : d ≤ 99) (hr : r < 900) :
    firIdPatternOk (generateFirId y m d r) = true := by
  have h1 : ("FIR-" : String) = String.mk ['F', 'I', 'R', '-'] := rfl
  have h2 : ("-" : String) = String.mk ['-'] := rfl
  have hsuf : natDigits (r + 100) =
      [digitChar ((r + 100) / 100), digitChar ((r + 100) / 10 % 10),
        digitChar ((r + 100) % 10)] :=
    natDigits_three (by omega) (by omega)
  have hdate := formatYyyyMmDd_length hy hm hd
  unfold generateFirId
  rw [h1, h2, string_mk_append, string_mk_append, string_mk_append]
  have hlist : (['F', 'I', 'R', '-'] ++ formatYyyyMmDd y m d ++ ['-'] ++
      natDigits (r + 100)) =
      'F' :: 'I' :: 'R' :: '-' ::
        (formatYyyyMmDd y m d ++ '-' :: natDigits (r + 100)) := by
    simp
  rw [hlist]
  simp only [firIdPatternOk]
  rw [List.take_left' hdate, List.drop_left' hdate]
  have hall := formatYyyyMmDd_all_isDigit y m d
  have hd1 : (digitChar ((r + 100) / 100)).isDigit = true :=
    digitChar_isDigit (by omega)
  have hd2 : (digitChar ((r + 100) / 10 % 10)).isDigit = true :=
    digitChar_isDigit (by omega)
  have hd3 : (digitChar ((r + 100) % 10)).isDigit = true :=
    digitChar_isDigit (by omega)
  simp [hdate, hall, hsuf, hd1, hd2, hd3]
  exact digitChar_isDigit (by omega)

/-- Witness for C9 at the concrete date 2025-10-11 with random draw 5. -/
theorem generateFirId_matches_pattern_witness :
    firIdPatternOk (generateFirId 2025 10 11 5) = true :=
  generateFirId_matches_pattern 2025 10 11 5 (by decide) (by decide) (by decide)
    (by decide)

/-! ## Data model (`shared/schema.ts`)

Rows of the `firs`, `status_updates` and `notifications` tables.  Timestamp
columns are modeled by a strictly monotone `Nat` clock held in the store
state (every `new Date()` / `defaultNow()` reads and advances it); `jsonb`
payloads are modeled as opaque optional strings. -/

structure Fir where
  id : Nat
  firId : String
  userId : Option Int
  officerId : Option Int
  crime : String
  ipcSections : List String
  summary : String
  priority : Int
  dateTime : Option String
  location : Option String
  coordinates : Option String
  district : Option String
  state : Option String
  suspects : Option String
  victims : Option String
  witnesses : Option String
  status : String
  tags : Option (List String)
  isAnonymous : Option Bool
  createdAt : Nat
  updatedAt : Nat
  closedAt : Option Nat
  metadata : Option String
deriving Repr, DecidableEq, Inhabited

/-- `insertFirSchema` = the `firs` columns minus `id`, `createdAt`,
`updatedAt`, `closedAt`.  `none` means the key is absent from the payload. -/
structure InsertFir where
  firId : String
  crime : String
  ipcSections : List String
  summary : String
  priority : Int
  userId : Option Int := none
  officerId : Option Int := none
  dateTime : Option String := none
  location : Option String := none
  coordinates : Option String := none
  district : Option String := none
  state : Option String := none
  suspects : Option String := none
  victims : Option String := none
  witnesses : Option String := none
  status : Option String := none
  tags : Option (List String) := none
  isAnonymous : Option Bool := none
  metadata : Option String := none
deriving Repr, DecidableEq

structure StatusUpdate where
  id : Nat
  firId : String
  status : String
  description : String
  updatedBy : Option Int
  timestamp : Nat
  notes : Option String
  isPublic : Option Bool
deriving Repr, DecidableEq

/-- `insertStatusUpdateSchema` = `status_updates` minus `id`, `timestamp`. -/
structure InsertStatusUpdate where
  firId : String
  status : String
  description : String
  updatedBy : Option Int := none
  notes : Option String := none
  isPublic : Option Bool := none
deriving Repr, DecidableEq

structure Notification where
  id : Nat
  userId : Int
  firId : Option String
  title : String
  message : String
  type : String
  isRead : Bool
  createdAt : Nat
  link : Option String
deriving Repr, DecidableEq

/-- The mutable tables touched by the claims, plus the id counters backing
the `serial` columns and the monotone clock backing `new Date()`. -/
structure StoreState where
  firs : List Fir
  statusUpdates : List StatusUpdate
  notifications : List Notification
  clock : Nat
  nextFirRowId : Nat
  nextSuId : Nat
  nextNotifId : Nat
deriving Repr, DecidableEq

def initState : StoreState :=
  { firs := [], statusUpdates := [], notifications := [],
    clock := 0, nextFirRowId := 1, nextSuId := 1, nextNotifId := 1 }

/-! ## Record store (`server/storage.ts`, class `DatabaseStorage`) -/

/-- JavaScript `x || null` on an optional string field (empty string is
falsy). -/
def jsOrNull (v : Option String) : Option String :=
  match v with
  | some s => if s = "" then none else some s
  | none => none

/-- JavaScript `insertFir.status || "REGISTERED"`. -/
def jsOrRegistered (v : Option String) : String :=
  match v with
  | some s => if s = "" then "REGISTERED" else s
  | none => "REGISTERED"

/-- `createStatusUpdate`: one `INSERT ... RETURNING`.  The row references
`firs.fir_id`, so the insert throws (and writes nothing) when no FIR with
that id exists; otherwise the row is appended with a fresh serial id and a
`defaultNow()` timestamp. -/
def createStatusUpdateRun (s : StoreState) (i : InsertStatusUpdate) :
    Option StatusUpdate × StoreState :=
  if s.firs.any (fun f => f.firId == i.firId) then
    let row : StatusUpdate :=
      { id := s.nextSuId, firId := i.firId, status := i.status,
        description := i.description, updatedBy := i.updatedBy,
        timestamp := s.clock, notes := i.notes, isPublic := some (i.isPublic.getD true) }
    (some row,
      { s with statusUpdates := s.statusUpdates ++ [row],
               clock := s.clock + 1, nextSuId := s.nextSuId + 1 })
  else (none, s)

/-- `createFir`: insert the FIR row (status defaulting to `REGISTERED`,
`dateTime`/`location` coerced by `|| null`), then create the genesis status
update.  A duplicate `fir_id` violates the unique constraint and the insert
throws, writing nothing.  The returned FIR is the row produced by the first
insert. -/
def createFirRun (s : StoreState) (p : InsertFir) : Option Fir × StoreState :=
  if s.firs.any (fun f => f.firId == p.firId) then (none, s)
  else
    let fir : Fir :=
      { id := s.nextFirRowId, firId := p.firId, userId := p.userId,
        officerId := p.officerId, crime := p.crime,
        ipcSections := p.ipcSections, summary := p.summary,
        priority := p.priority, dateTime := jsOrNull p.dateTime,
        location := jsOrNull p.location, coordinates := p.coordinates,
        district := p.district, state := p.state, suspects := p.suspects,
        victims := p.victims, witnesses := p.witnesses,
        status := jsOrRegistered p.status, tags := p.tags,
        isAnonymous := some (p.isAnonymous.getD false),
        createdAt := s.clock, updatedAt := s.clock, closedAt := none,
        metadata := p.metadata }
    let s1 : StoreState :=
      { s with firs := s.firs ++ [fir], clock := s.clock + 1,
               nextFirRowId := s.nextFirRowId + 1 }
    let res := createStatusUpdateRun s1
      { firId := fir.firId, status := "REGISTERED",
        description := "FIR has been registered in the system with ID " ++ fir.firId }
    (some fir, res.2)

/-- A `Partial<Fir>` as passed to `updateFir`: a present key overrides the
field (for nullable columns the inner `Option` carries an explicit null).
The `fir_id` key itself is never part of an update payload. -/
structure FirUpdate where
  crime : Option String := none
  summary : Option String := none
  priority : Option Int := none
  status : Option String := none
  dateTime : Option (Option String) := none
  location : Option (Option String) := none
  officerId : Option (Option Int) := none
  tags : Option (Option (List String)) := none
  closedAt : Option (Option Nat) := none
deriving Repr, DecidableEq

/-- `{ ...updates, updatedAt: new Date() }` merged over a row. -/
def mergeFir (f : Fir) (u : FirUpdate) (t : Nat) : Fir :=
  { f with crime := u.crime.getD f.crime, summary := u.summary.getD f.summary,
           priority := u.priority.getD f.priority,
           status := u.status.getD f.status,
           dateTime := u.dateTime.getD f.dateTime,
           location := u.location.getD f.location,
           officerId := u.officerId.getD f.officerId,
           tags := u.tags.getD f.tags,
           closedAt := u.closedAt.getD f.closedAt, updatedAt := t }

/-- `updateFir`: one `UPDATE ... WHERE fir_id = $1 RETURNING`; returns the
first returned row, or `undefined` when nothing matched. -/
def updateFirRun (s : StoreState) (fid : String) (u : FirUpdate) :
    Option Fir × StoreState :=
  let t := s.clock
  let newFirs := s.firs.map (fun f => if f.firId == fid then mergeFir f u t else f)
  let ret := ((s.firs.filter (fun f => f.firId == fid)).head?).map
    (fun f => mergeFir f u t)
  (ret, { s with firs := newFirs, clock := t + 1 })

/-- The `SET` clause of `updateFirStatus`: the new status, a fresh
`updatedAt`, and — only when the new status is `CLOSED` — a fresh
`closedAt`. -/
def applyStatus (f : Fir) (st : String) (t : Nat) : Fir :=
  { f with status := st, updatedAt := t,
           closedAt := if st = "CLOSED" then some t else f.closedAt }

/-- `updateFirStatus`: update the FIR row; if a row was returned, append a
`StatusUpdate` describing the transition and return the updated FIR. -/
def updateFirStatusRun (s : StoreState) (fid st : String) (ub : Option Int) :
    Option Fir × StoreState :=
  let t := s.clock
  let newFirs := s.firs.map (fun f => if f.firId == fid then applyStatus f st t else f)
  let ret := ((s.firs.filter (fun f => f.firId == fid)).head?).map
    (fun f => applyStatus f st t)
  let s1 : StoreState := { s with firs := newFirs, clock := t + 1 }
  match ret with
  | none => (none, s1)
  | some f =>
    let res := createStatusUpdateRun s1
      { firId := f.firId, status := st,
        description := "Status updated to " ++ st, updatedBy := ub }
    (some f, res.2)

/-- Boolean ordering of status updates by their `timestamp` column. -/
def suLeTs (a b : StatusUpdate) : Bool := decide (a.timestamp ≤ b.timestamp)

/-- `getStatusUpdates`: `SELECT ... WHERE fir_id = $1 ORDER BY timestamp`
(ascending). -/
def getStatusUpdates (s : StoreState) (fid : String) : List StatusUpdate :=
  sortList suLeTs (s.statusUpdates.filter (fun u => u.firId == fid))

/-- `getFirCount`: `SELECT count(*) FROM firs`. -/
def getFirCount (s : StoreState) : Nat := s.firs.length

/-! ## Sequences of public store mutations -/

/-- The public mutating operations of `DatabaseStorage` that touch FIRs and
their status history. -/
inductive Op where
  | createFir (p : InsertFir)
  | updateFir (fid : String) (u : FirUpdate)
  | updateFirStatus (fid st : String) (ub : Option Int)
  | createStatusUpdate (i : InsertStatusUpdate)
deriving Repr, DecidableEq

def applyOp (s : StoreState) : Op → StoreState
  | .createFir p => (createFirRun s p).2
  | .updateFir fid u => (updateFirRun s fid u).2
  | .updateFirStatus fid st ub => (updateFirStatusRun s fid st ub).2
  | .createStatusUpdate i => (createStatusUpdateRun s i).2

def runOps (s : StoreState) (ops : List Op) : StoreState := ops.foldl applyOp s

/-- Structural store invariant: timestamps are below the clock and strictly
increase along the `status_updates` table, every status update references an
existing FIR (the foreign key), and every FIR's filtered history starts with
its genesis `REGISTERED` entry. -/
structure Inv (s : StoreState) : Prop where
  su_clock : ∀ u ∈ s.statusUpdates, u.timestamp < s.clock
  su_sorted : s.statusUpdates.Pairwise (fun a b => a.timestamp < b.timestamp)
  su_fk : ∀ u ∈ s.statusUpdates, ∃ f ∈ s.firs, f.firId = u.firId
  genesis : ∀ f ∈ s.firs, ∃ hd tl,
    s.statusUpdates.filter (fun u => u.firId == f.firId) = hd :: tl ∧
      hd.status = "REGISTERED"

theorem inv_init : Inv initState := by
  constructor <;> simp [initState]

theorem mergeFir_firId (f : Fir) (u : FirUpdate) (t : Nat) :
    (mergeFir f u t).firId = f.firId := rfl

theorem applyStatus_firId (f : Fir) (st : String) (t : Nat) :
    (applyStatus f st t).firId = f.firId := rfl

theorem inv_createStatusUpdate (s : StoreState) (i : InsertStatusUpdate)
    (h : Inv s) : Inv (createStatusUpdateRun s i).2 := by
  unfold createStatusUpdateRun
  by_cases hfk : s.firs.any (fun f => f.firId == i.firId) = true
  · simp only [hfk, if_pos]
    constructor
    · intro u hu
      rcases List.mem_append.1 hu with hu | hu
      · exact Nat.lt_succ_of_lt (h.su_clock u hu)
      · simp at hu
        subst hu
        exact Nat.lt_succ_self _
    · rw [List.pairwise_append]
      refine ⟨h.su_sorted, List.pairwise_singleton _ _, ?_⟩
      intro a ha b hb
      simp at hb
      subst hb
      exact h.su_clock a ha
    · intro u hu
      rcases List.mem_append.1 hu with hu | hu
      · exact h.su_fk u hu
      · simp at hu
        subst hu
        simp only [List.any_eq_true, beq_iff_eq] at hfk
        exact hfk
    · intro f hf
      obtain ⟨hd, tl, hft, hst⟩ := h.genesis f hf
      rw [List.filter_append, hft, List.cons_append]
      exact ⟨hd, _, rfl, hst⟩
  · simp only [hfk, if_neg, Bool.false_eq_true, not_false_iff]
    exact h

theorem inv_createFir (s : StoreState) (p : InsertFir) (h : Inv s) :
    Inv (createFirRun s p).2 := by
  by_cases hdup : s.firs.any (fun f => f.firId == p.firId) = true
  · simpa only [createFirRun, hdup, if_pos] using h
  · have hempty : s.statusUpdates.filter (fun u => u.firId == p.firId) = [] := by
      rw [List.filter_eq_nil_iff]
      intro u hu
      simp only [beq_iff_eq]
      intro hequ
      obtain ⟨f, hf, hff⟩ := h.su_fk u hu
      exact hdup (List.any_eq_true.2 ⟨f, hf, by simp [hff, hequ]⟩)
    simp only [createFirRun, hdup, Bool.false_eq_true, if_neg, not_false_iff,
      createStatusUpdateRun]
    rw [if_pos (by simp)]
    constructor
    · intro u hu
      rcases List.mem_append.1 hu with hu | hu
      · have := h.su_clock u hu
        dsimp only
        omega
      · simp at hu
        subst hu
        simp
    · rw [List.pairwise_append]
      refine ⟨h.su_sorted, List.pairwise_singleton _ _, ?_⟩
      intro a ha b hb
      simp at hb
      subst hb
      have := h.su_clock a ha
      dsimp only
      omega
    · intro u hu
      rcases List.mem_append.1 hu with hu | hu
      · obtain ⟨f, hf, hff⟩ := h.su_fk u hu
        exact ⟨f, List.mem_append_left _ hf, hff⟩
      · simp at hu
        subst hu
        exact ⟨_, List.mem_append_right _ (List.mem_singleton_self _), rfl⟩
    · intro f hf
      rcases List.mem_append.1 hf with hf | hf
      · obtain ⟨hd, tl, hft, hst⟩ := h.genesis f hf
        rw [List.filter_append, hft, List.cons_append]
        exact ⟨hd, _, rfl, hst⟩
      · simp at hf
        subst hf
        simp only [List.filter_append, hempty, List.nil_append]
        rw [List.filter_cons_of_pos (by simp)]
        exact ⟨_, _, rfl, rfl⟩

theorem inv_updateFir (s : StoreState) (fid : String) (u : FirUpdate)
    (h : Inv s) : Inv (updateFirRun s fid u).2 := by
  simp only [updateFirRun]
  constructor
  · intro v hv
    have := h.su_clock v hv
    dsimp only
    omega
  · exact h.su_sorted
  · intro v hv
    obtain ⟨f, hf, hff⟩ := h.su_fk v hv
    by_cases hc : f.firId == fid
    · exact ⟨mergeFir f u s.clock, List.mem_map.2 ⟨f, hf, by simp [hc]⟩,
        by rw [mergeFir_firId]; exact hff⟩
    · exact ⟨f, List.mem_map.2 ⟨f, hf, by simp [hc]⟩, hff⟩
  · intro f hf
    obtain ⟨g, hg, hgf⟩ := List.mem_map.1 hf
    have hid : f.firId = g.firId := by
      by_cases hc : g.firId == fid
      · rw [← hgf]; simp [hc, mergeFir_firId]
      · rw [← hgf]; simp [hc]
    rw [hid]
    exact h.genesis g hg

theorem inv_updateFirStatus (s : StoreState) (fid st : String)
    (ub : Option Int) (h : Inv s) : Inv (updateFirStatusRun s fid st ub).2 := by
  have hmapInv : Inv { s with
      firs := s.firs.map (fun f => if f.firId == fid then applyStatus f st s.clock else f),
      clock := s.clock + 1 } := by
    constructor
    · intro v hv
      have := h.su_clock v hv
      dsimp only
      omega
    · exact h.su_sorted
    · intro v hv
      obtain ⟨f, hf, hff⟩ := h.su_fk v hv
      by_cases hc : f.firId == fid
      · exact ⟨applyStatus f st s.clock, List.mem_map.2 ⟨f, hf, by simp [hc]⟩,
          by rw [applyStatus_firId]; exact hff⟩
      · exact ⟨f, List.mem_map.2 ⟨f, hf, by simp [hc]⟩, hff⟩
    · intro f hf
      obtain ⟨g, hg, hgf⟩ := List.mem_map.1 hf
      have hid : f.firId = g.firId := by
        by_cases hc : g.firId == fid
        · rw [← hgf]; simp [hc, applyStatus_firId]
        · rw [← hgf]; simp [hc]
      rw [hid]
      exact h.genesis g hg
  simp only [updateFirStatusRun]
  cases hret : ((s.firs.filter (fun f => f.firId == fid)).head?).map
      (fun f => applyStatus f st s.clock) with
  | none => simpa [hret] using hmapInv
  | some f =>
    simp only [hret]
    exact inv_createStatusUpdate _ _ hmapInv

theorem inv_applyOp (s : StoreState) (op : Op) (h : Inv s) : Inv (applyOp s op) := by
  cases op with
  | createFir p => exact inv_createFir s p h
  | updateFir fid u => exact inv_updateFir s fid u h
  | updateFirStatus fid st ub => exact inv_updateFirStatus s fid st ub h
  | createStatusUpdate i => exact inv_createStatusUpdate s i h

theorem inv_runOps (ops : List Op) (s : StoreState) (h : Inv s) :
    Inv (runOps s ops) := by
  induction ops generalizing s with
  | nil => exact h
  | cons op rest ih => exact ih _ (inv_applyOp s op h)

theorem createStatusUpdateRun_firs (s : StoreState) (i : InsertStatusUpdate) :
    (createStatusUpdateRun s i).2.firs = s.firs := by
  unfold createStatusUpdateRun
  by_cases hfk : s.firs.any (fun f => f.firId == i.firId) = true <;> simp [hfk]

/-! ## C1: the closure-timestamp invariant -/

/-- Side conditions under which the forward closure implication is
preserved: `createFir` does not create a FIR already in the terminal state,
and `updateFir` is not used to change `status` or `closedAt` directly. -/
def opKeepsClosureDiscipline : Op → Bool
  | .createFir p => jsOrRegistered p.status != "CLOSED"
  | .updateFir _ u => u.status == none && u.closedAt == none
  | .updateFirStatus _ _ _ => true
  | .createStatusUpdate _ => true

/-- One direction of the claimed invariant, as an inductive state property. -/
def ClosedOk (s : StoreState) : Prop :=
  ∀ f ∈ s.firs, f.status = "CLOSED" → f.closedAt ≠ none

theorem closedOk_applyOp (s : StoreState) (op : Op) (h : ClosedOk s)
    (hop : opKeepsClosureDiscipline op = true) : ClosedOk (applyOp s op) := by
  cases op with
  | createFir p =>
    simp only [opKeepsClosureDiscipline, bne_iff_ne, ne_eq] at hop
    simp only [applyOp, createFirRun]
    by_cases hdup : s.firs.any (fun f => f.firId == p.firId) = true
    · simpa [hdup] using h
    · simp only [hdup, Bool.false_eq_true, if_neg, not_false_iff]
      intro f hf
      rw [createStatusUpdateRun_firs] at hf
      rcases List.mem_append.1 hf with hf | hf
      · exact h f hf
      · simp at hf
        subst hf
        intro hcl
        exact absurd hcl hop
  | updateFir fid u =>
    simp only [opKeepsClosureDiscipline, Bool.and_eq_true, beq_iff_eq] at hop
    simp only [applyOp, updateFirRun]
    intro f hf
    obtain ⟨g, hg, hgf⟩ := List.mem_map.1 hf
    by_cases hc : g.firId == fid
    · rw [if_pos hc] at hgf
      subst hgf
      simp only [mergeFir, hop.1, hop.2, Option.getD_none]
      exact h g hg
    · rw [if_neg (by simpa using hc)] at hgf
      subst hgf
      exact h g hg
  | updateFirStatus fid st ub =>
    simp only [applyOp, updateFirStatusRun]
    cases hret : ((s.firs.filter (fun f => f.firId == fid)).head?).map
        (fun f => applyStatus f st s.clock) with
    | none =>
      simp only [hret]
      intro f hf
      obtain ⟨g, hg, hgf⟩ := List.mem_map.1 hf
      by_cases hc : g.firId == fid
      · rw [if_pos hc] at hgf
        subst hgf
        simp only [applyStatus]
        intro hcl
        simp only [hcl, if_pos]
        simp
      · rw [if_neg (by simpa using hc)] at hgf
        subst hgf
        exact h g hg
    | some f0 =>
      simp only [hret]
      intro f hf
      rw [createStatusUpdateRun_firs] at hf
      obtain ⟨g, hg, hgf⟩ := List.mem_map.1 hf
      by_cases hc : g.firId == fid
      · rw [if_pos hc] at hgf
        subst hgf
        simp only [applyStatus]
        intro hcl
        simp only [hcl, if_pos]
        simp
      · rw [if_neg (by simpa using hc)] at hgf
        subst hgf
        exact h g hg
  | createStatusUpdate i =>
    simp only [applyOp]
    intro f hf
    rw [createStatusUpdateRun_firs] at hf
    exact h f hf

/-- **C1 (amended).** After any sequence of public calls in which no
`createFir` payload carries the terminal status and `updateFir` never
touches `status` or `closedAt`, every FIR whose status is `CLOSED` has a
non-null `closedAt`.  (The claimed biconditional is false — see the
counterexample: `updateFirStatus` never clears `closedAt`, so a closed FIR
that is later moved to another status keeps its closure timestamp.) -/
theorem closed_status_has_closedAt (ops : List Op)
    (hops : ∀ op ∈ ops, opKeepsClosureDiscipline op = true) :
    ∀ f ∈ (runOps initState ops).firs, f.status = "CLOSED" → f.closedAt ≠ none := by
  have main : ∀ (l : List Op) (s : StoreState), ClosedOk s →
      (∀ op ∈ l, opKeepsClosureDiscipline op = true) → ClosedOk (runOps s l) := by
    intro l
    induction l with
    | nil => intro s h _; exact h
    | cons op rest ih =>
      intro s h hl
      exact ih _ (closedOk_applyOp s op h (hl op (by simp)))
        (fun o ho => hl o (by simp [ho]))
  exact main ops initState (by intro f hf; simp [initState] at hf) hops

/-- A concrete creation payload used by witnesses and counterexamples. -/
def samplePayload : InsertFir :=
  { firId := "FIR-0001", crime := "theft", ipcSections := ["IPC 379"],
    summary := "stolen bicycle", priority := 3 }

/-- Create, close, then reopen a FIR. -/
def c1Ops : List Op :=
  [.createFir samplePayload,
   .updateFirStatus "FIR-0001" "CLOSED" none,
   .updateFirStatus "FIR-0001" "REGISTERED" none]

/-- **C1 (counterexample).** After create → `CLOSED` → `REGISTERED`, the
store holds exactly one FIR whose status is `REGISTERED` while `closedAt`
is still set: `closedAt ≠ null ⇔ status = CLOSED` fails. -/
theorem closedAt_iff_closed_counterexample :
    (runOps initState c1Ops).firs.map (fun f => (f.status, f.closedAt)) =
      [("REGISTERED", some 2)] ∧
    ¬ (∀ f ∈ (runOps initState c1Ops).firs,
        f.closedAt ≠ none ↔ f.status = "CLOSED") := by
  constructor
  · decide
  · decide

def c1WitnessOps : List Op :=
  [.createFir samplePayload, .updateFirStatus "FIR-0001" "CLOSED" none]

/-- Witness for the amended C1: create then close; the closed FIR has a
closure timestamp. -/
theorem closed_status_has_closedAt_witness :
    (∀ op ∈ c1WitnessOps, opKeepsClosureDiscipline op = true) ∧
    ((runOps initState c1WitnessOps).firs.headD default).closedAt ≠ none :=
  ⟨by decide,
   closed_status_has_closedAt c1WitnessOps (by decide)
     ((runOps initState c1WitnessOps).firs.headD default) (by decide) (by decide)⟩

/-! ## C3: genesis status update and chronological history -/

/-- **C3.** For every FIR present in the store after any sequence of public
mutations (FIRs exist only via `createFir`), `getStatusUpdates` returns a
non-empty list, ordered oldest-to-newest by timestamp, whose first entry has
status `REGISTERED`. -/
theorem getStatusUpdates_genesis (ops : List Op) :
    ∀ f ∈ (runOps initState ops).firs,
      getStatusUpdates (runOps initState ops) f.firId ≠ [] ∧
      (getStatusUpdates (runOps initState ops) f.firId).head?.map
        StatusUpdate.status = some "REGISTERED" ∧
      (getStatusUpdates (runOps initState ops) f.firId).Pairwise
        (fun a b => a.timestamp ≤ b.timestamp) := by
  intro f hf
  have hinv := inv_runOps ops initState inv_init
  obtain ⟨hd, tl, hft, hst⟩ := hinv.genesis f hf
  have hsorted : ((runOps initState ops).statusUpdates.filter
      (fun u => u.firId == f.firId)).Pairwise
      (fun a b => a.timestamp < b.timestamp) := hinv.su_sorted.filter _
  have hle : ((runOps initState ops).statusUpdates.filter
      (fun u => u.firId == f.firId)).Pairwise
      (fun a b => suLeTs a b = true) := by
    refine hsorted.imp ?_
    intro a b hab
    simp only [suLeTs, decide_eq_true_eq]
    omega
  have heq : getStatusUpdates (runOps initState ops) f.firId = hd :: tl := by
    unfold getStatusUpdates
    rw [sortList_eq_of_pairwise _ _ hle, hft]
  refine ⟨by simp [heq], by simp [heq, hst], ?_⟩
  rw [heq, ← hft]
  refine hsorted.imp ?_
  intro a b hab
  omega

def c3Ops : List Op := [Op.createFir samplePayload]

def c3Fir : Fir := (runOps initState c3Ops).firs.headD default

/-- Witness for C3 on a store holding one freshly created FIR. -/
theorem getStatusUpdates_genesis_witness :
    c3Fir ∈ (runOps initState c3Ops).firs ∧
    (getStatusUpdates (runOps initState c3Ops) c3Fir.firId ≠ [] ∧
      (getStatusUpdates (runOps initState c3Ops) c3Fir.firId).head?.map
        StatusUpdate.status = some "REGISTERED" ∧
      (getStatusUpdates (runOps initState c3Ops) c3Fir.firId).Pairwise
        (fun a b => a.timestamp ≤ b.timestamp)) :=
  ⟨by decide, getStatusUpdates_genesis c3Ops c3Fir (by decide)⟩

/-! ## C2: the compound writes are two independent statements

`createFir` and `updateFirStatus` issue two separate awaited statements with
no enclosing transaction.  The backing store is atomic per statement only,
so a failure of the second statement leaves the first committed.  The
fallible variants below take a flag saying whether the second statement
throws; the first statement is already committed when it does. -/

inductive DbResult (α : Type) where
  | ok (a : α)
  | thrown
deriving Repr, DecidableEq

/-- The row built by `createFir`'s first insert. -/
def firRowOf (s : StoreState) (p : InsertFir) : Fir :=
  { id := s.nextFirRowId, firId := p.firId, userId := p.userId,
    officerId := p.officerId, crime := p.crime, ipcSections := p.ipcSections,
    summary := p.summary, priority := p.priority,
    dateTime := jsOrNull p.dateTime, location := jsOrNull p.location,
    coordinates := p.coordinates, district := p.district, state := p.state,
    suspects := p.suspects, victims := p.victims, witnesses := p.witnesses,
    status := jsOrRegistered p.status, tags := p.tags,
    isAnonymous := some (p.isAnonymous.getD false), createdAt := s.clock,
    updatedAt := s.clock, closedAt := none, metadata := p.metadata }

/-- `createFir` with the genesis `createStatusUpdate` insert throwing when
`genesisFails` is set: the FIR row from the first insert stays committed. -/
def createFirFallible (s : StoreState) (p : InsertFir) (genesisFails : Bool) :
    DbResult Fir × StoreState :=
  if s.firs.any (fun f => f.firId == p.firId) then (.thrown, s)
  else
    let fir := firRowOf s p
    let s1 : StoreState :=
      { s with firs := s.firs ++ [fir], clock := s.clock + 1,
               nextFirRowId := s.nextFirRowId + 1 }
    if genesisFails then (.thrown, s1)
    else
      let res := createStatusUpdateRun s1
        { firId := fir.firId, status := "REGISTERED",
          description := "FIR has been registered in the system with ID " ++ fir.firId }
      (.ok fir, res.2)

/-- `updateFirStatus` with the history append throwing when `appendFails` is
set: the status/`closedAt` update from the first statement stays
committed. -/
def updateFirStatusFallible (s : StoreState) (fid st : String)
    (ub : Option Int) (appendFails : Bool) : DbResult (Option Fir) × StoreState :=
  let t := s.clock
  let newFirs := s.firs.map (fun f => if f.firId == fid then applyStatus f st t else f)
  let ret := ((s.firs.filter (fun f => f.firId == fid)).head?).map
    (fun f => applyStatus f st t)
  let s1 : StoreState := { s with firs := newFirs, clock := t + 1 }
  match ret with
  | none => (.ok none, s1)
  | some f =>
    if appendFails then (.thrown, s1)
    else
      let res := createStatusUpdateRun s1
        { firId := f.firId, status := st,
          description := "Status updated to " ++ st, updatedBy := ub }
      (.ok (some f), res.2)

/-- **C2 (code-bug demonstration).** When the second statement of either
compound write throws, the first statement's effect is still observable:
`createFir` leaves a persisted FIR with an empty status history, and
`updateFirStatus` leaves the status field (and `closedAt`) updated with no
appended `StatusUpdate`.  The claimed atomicity does not hold — there is no
enclosing transaction. -/
theorem compound_writes_not_atomic :
    ((createFirFallible initState samplePayload true).1 = DbResult.thrown ∧
      ((createFirFallible initState samplePayload true).2.firs.map Fir.firId) =
        ["FIR-0001"] ∧
      getStatusUpdates (createFirFallible initState samplePayload true).2
        "FIR-0001" = []) ∧
    ((updateFirStatusFallible (runOps initState [Op.createFir samplePayload])
        "FIR-0001" "CLOSED" none true).1 = DbResult.thrown ∧
      ((updateFirStatusFallible (runOps initState [Op.createFir samplePayload])
          "FIR-0001" "CLOSED" none true).2.firs.map
        (fun f => (f.status, f.closedAt))) = [("CLOSED", some 2)] ∧
      (getStatusUpdates (updateFirStatusFallible
          (runOps initState [Op.createFir samplePayload])
          "FIR-0001" "CLOSED" none true).2 "FIR-0001").map
        StatusUpdate.status = ["REGISTERED"]) := by
  constructor
  · refine ⟨by decide, by decide, by decide⟩
  · refine ⟨by decide, by decide, by decide⟩

/-! ## Search engine (`searchFirs`, `server/storage.ts`) -/

/-- A `string | string[]` (resp. `number | number[]`) query parameter. -/
inductive OneOrMany (α : Type) where
  | one (a : α)
  | many (l : List α)
deriving Repr, DecidableEq

inductive SortDir where
  | asc
  | desc
deriving Repr, DecidableEq

/-- The sortable columns the claims exercise (`firs[sortBy]`). -/
inductive SortField where
  | createdAt
  | updatedAt
  | priority
deriving Repr, DecidableEq

/-- `SearchParams` from `server/storage.ts`.  `none` = key absent.  Date
bounds are modeled as already-parsed clock values. -/
structure SearchParams where
  query : Option String := none
  status : Option (OneOrMany String) := none
  priority : Option (OneOrMany Int) := none
  startDate : Option Nat := none
  endDate : Option Nat := none
  location : Option String := none
  ipcSection : Option String := none
  tags : Option (List String) := none
  page : Option Nat := none
  limit : Option Nat := none
  userId : Option Int := none
  officerId : Option Int := none
  sortBy : Option SortField := none
  sortDirection : Option SortDir := none
deriving Repr, DecidableEq

/-- `needle` occurs as a contiguous run in `hay`. -/
def isPrefixB : List Char → List Char → Bool
  | [], _ => true
  | _ :: _, [] => false
  | a :: as, b :: bs => a == b && isPrefixB as bs

def isInfixB (needle : List Char) : List Char → Bool
  | [] => isPrefixB needle []
  | b :: bs => isPrefixB needle (b :: bs) || isInfixB needle bs

/-- SQL `col LIKE '%needle%'` on a non-null text column. -/
def strContains (hay needle : String) : Bool := isInfixB needle.data hay.data

/-- SQL `col LIKE '%needle%'` on a nullable column: `NULL` never matches. -/
def likeContains (col : Option String) (needle : String) : Bool :=
  match col with
  | some s => strContains s needle
  | none => false

/-- The `or(...)` free-text condition over crime, summary, location and
case id. -/
def matchQuery (q : String) (f : Fir) : Bool :=
  strContains f.crime q || strContains f.summary q ||
    likeContains f.location q || strContains f.firId q

/-- The conjunction of the pushed `conditions`, one factor per truthy
search parameter, in the order the code pushes them.  JavaScript truthiness
is mirrored: empty strings and zero numbers are skipped, arrays (even
empty) are not.  The multi-tag case reflects `ARRAY[tags.join(',')]`: the
parameter tags are joined into a single comma-separated element. -/
def matchesFir (p : SearchParams) (f : Fir) : Bool :=
  (match p.query with
   | some q => if q = "" then true else matchQuery q f
   | none => true) &&
  (match p.status with
   | some (.one st) => if st = "" then true else f.status == st
   | some (.many l) => l.contains f.status
   | none => true) &&
  (match p.priority with
   | some (.one pr) => if pr = 0 then true else f.priority == pr
   | some (.many l) => l.contains f.priority
   | none => true) &&
  (match p.startDate with
   | some d => decide (d ≤ f.createdAt)
   | none => true) &&
  (match p.endDate with
   | some d => decide (f.createdAt ≤ d)
   | none => true) &&
  (match p.location with
   | some loc => if loc = "" then true else likeContains f.location loc
   | none => true) &&
  (match p.userId with
   | some uid => if uid = 0 then true else f.userId == some uid
   | none => true) &&
  (match p.officerId with
   | some oid => if oid = 0 then true else f.officerId == some oid
   | none => true) &&
  (match p.ipcSection with
   | some sec => if sec = "" then true else f.ipcSections.contains sec
   | none => true) &&
  (match p.tags with
   | some ts =>
     if ts.isEmpty then true
     else
       match f.tags with
       | some ft => ft.contains (String.intercalate "," ts)
       | none => false
   | none => true)

def sortVal (fld : SortField) (f : Fir) : Int :=
  match fld with
  | .createdAt => (f.createdAt : Int)
  | .updatedAt => (f.updatedAt : Int)
  | .priority => f.priority

/-- The `ORDER BY` comparator: `asc(col)` or `desc(col)`. -/
def firLe (fld : SortField) (dir : SortDir) (a b : Fir) : Bool :=
  match dir with
  | .asc => decide (sortVal fld a ≤ sortVal fld b)
  | .desc => decide (sortVal fld b ≤ sortVal fld a)

/-- `searchFirs`: count the matching rows (ignoring pagination), then
return the sorted page.  Defaults: `page = 1`, `limit = 10`,
`sortBy = createdAt`, `sortDirection = desc`. -/
def searchFirs (s : StoreState) (p : SearchParams) : List Fir × Nat :=
  let page := p.page.getD 1
  let limit := p.limit.getD 10
  let offset := (page - 1) * limit
  let matched := s.firs.filter (matchesFir p)
  let total := matched.length
  let fld := p.sortBy.getD .createdAt
  let dir := p.sortDirection.getD .desc
  (((sortList (firLe fld dir) matched).drop offset).take limit, total)

/-- **C6.** With an empty parameter set, `searchFirs` reports the same
total as `getFirCount` and returns the unfiltered listing sorted by
creation time descending, paginated with the defaults (page 1, limit 10);
in general the reported total is the number of matching rows ignoring
pagination. -/
theorem searchFirs_empty_params (s : StoreState) :
    (searchFirs s {}).2 = getFirCount s ∧
    (searchFirs s {}).1 = (sortList (firLe .createdAt .desc) s.firs).take 10 ∧
    ∀ p : SearchParams, (searchFirs s p).2 =
      (s.firs.filter (matchesFir p)).length := by
  have hall : List.filter (matchesFir {}) s.firs = s.firs :=
    List.filter_eq_self.2 (fun f _ => by simp [matchesFir])
  refine ⟨?_, ?_, fun p => rfl⟩
  · simp [searchFirs, getFirCount, hall]
  · simp [searchFirs, hall]

/-- **C7.** A `status` array predicate admits only FIRs whose status is in
the array, and round-trips with `updateFirStatus`: a FIR just written to
status `st` is among the rows matching the predicate `[st]` (the rows the
reported total counts). -/
theorem searchFirs_status_roundtrip :
    (∀ (s : StoreState) (p : SearchParams) (ss : List String),
      p.status = some (.many ss) →
      ∀ f ∈ (searchFirs s p).1, f.status ∈ ss) ∧
    (∀ (s : StoreState) (fid st : String) (ub : Option Int) (f : Fir),
      (updateFirStatusRun s fid st ub).1 = some f →
      f ∈ ((updateFirStatusRun s fid st ub).2.firs.filter
        (matchesFir { status := some (.many [st]) }))) := by
  constructor
  · intro s p ss hst f hf
    have hf1 : f ∈ sortList (firLe (p.sortBy.getD .createdAt)
        (p.sortDirection.getD .desc)) (s.firs.filter (matchesFir p)) :=
      List.mem_of_mem_drop (List.mem_of_mem_take hf)
    have hf2 : f ∈ s.firs.filter (matchesFir p) := (mem_sortList _ _ _).1 hf1
    have hm : matchesFir p f = true := (List.mem_filter.1 hf2).2
    rw [matchesFir, hst] at hm
    simp only [Bool.and_eq_true] at hm
    have := hm.1.1.1.1.1.1.1.1.2
    simpa using this
  · intro s fid st ub f hret
    simp only [updateFirStatusRun] at hret ⊢
    cases hfl : s.firs.filter (fun g => g.firId == fid) with
    | nil => rw [hfl] at hret; simp at hret
    | cons a t =>
      rw [hfl] at hret
      simp only [List.head?_cons, Option.map_some', Option.some.injEq] at hret
      simp only [List.head?_cons, Option.map_some']
      have ha : a ∈ s.firs.filter (fun g => g.firId == fid) := by
        rw [hfl]; exact List.mem_cons_self a t
      have haf := List.mem_filter.1 ha
      rw [createStatusUpdateRun_firs, List.mem_filter]
      constructor
      · refine List.mem_map.2 ⟨a, haf.1, ?_⟩
        rw [if_pos haf.2, hret]
      · rw [← hret]
        simp [matchesFir, applyStatus]

def c7State : StoreState := runOps initState [Op.createFir samplePayload]

def c7Params : SearchParams := { status := some (.many ["REGISTERED"]) }

def c7Fir : Fir := c7State.firs.headD default

def c7Closed : Fir :=
  (updateFirStatusRun c7State "FIR-0001" "CLOSED" none).1.getD default

/-- Witness for C7: a freshly created FIR is returned by the status search,
and a FIR just moved to `CLOSED` matches the `["CLOSED"]` predicate. -/
theorem searchFirs_status_roundtrip_witness :
    (c7Fir ∈ (searchFirs c7State c7Params).1 ∧ c7Fir.status ∈ ["REGISTERED"]) ∧
    ((updateFirStatusRun c7State "FIR-0001" "CLOSED" none).1 = some c7Closed ∧
      c7Closed ∈ ((updateFirStatusRun c7State "FIR-0001" "CLOSED" none).2.firs.filter
        (matchesFir { status := some (.many ["CLOSED"]) }))) :=
  ⟨⟨by decide,
    searchFirs_status_roundtrip.1 c7State c7Params ["REGISTERED"] rfl c7Fir (by decide)⟩,
   ⟨by decide,
    searchFirs_status_roundtrip.2 c7State "FIR-0001" "CLOSED" none c7Closed (by decide)⟩⟩

/-! ## C10: `getUserNotifications`

The code builds `db.select().from(notifications).where(eq(userId, ...))`
and then, when `unreadOnly` is set, calls `.where(eq(isRead, false))` on the
same builder.  Drizzle's select builder stores a single condition in its
config, so the second `.where` call replaces the first — the `userId`
filter is dropped whenever `unreadOnly` is true. -/

/-- `ORDER BY created_at DESC` over notifications. -/
def notifLe (a b : Notification) : Bool := decide (b.createdAt ≤ a.createdAt)

def getUserNotifications (s : StoreState) (uid : Int) (unreadOnly : Bool) :
    List Notification :=
  let cond : Notification → Bool := fun n => n.userId == uid
  let cond : Notification → Bool :=
    if unreadOnly then (fun n => n.isRead == false) else cond
  sortList notifLe (s.notifications.filter cond)

/-- A store holding one unread notification for user 1 and one for user 2. -/
def c10State : StoreState :=
  { initState with notifications :=
      [{ id := 1, userId := 1, firId := none, title := "a", message := "a",
         type := "status_update", isRead := false, createdAt := 0, link := none },
       { id := 2, userId := 2, firId := none, title := "b", message := "b",
         type := "status_update", isRead := false, createdAt := 1, link := none }] }

/-- **C10 (code-bug demonstration).** `getUserNotifications(1, true)`
returns user 2's unread notification: the second `.where` replaced the
`userId` condition, so the claimed ownership guarantee fails whenever
`unreadOnly` is true (the `unreadOnly = false` path does filter by user). -/
theorem getUserNotifications_leaks_other_users :
    (getUserNotifications c10State 1 false).map Notification.userId = [1] ∧
    (getUserNotifications c10State 1 true).map Notification.userId = [2, 1] ∧
    ¬ (∀ n ∈ getUserNotifications c10State 1 true, n.userId = 1) := by
  refine ⟨by decide, by decide, by decide⟩

/-! ## C8: `getMonthlyStats`

The code loops `month = 0 .. 11`, bounding each bucket by
`new Date(year, month, 1)` and `new Date(year, month + 1, 0, 23:59:59.999)`
— the first and last millisecond of the month as JavaScript `Date`s — and
counts FIRs whose `created_at` lies in the inclusive range.  The
`created_at` column is a Postgres `timestamp` filled by `defaultNow()`,
which carries **microsecond** precision, while a JavaScript `Date` carries
only milliseconds.  Instants are therefore modeled as
`(year, 0-based month, microsecond offset within the month)`, ordered
lexicographically; the upper bucket bound sits at the month's last whole
millisecond, leaving the final 999 µs of every month outside all buckets. -/

/-- JavaScript `Date` leap-year rule (Gregorian). -/
def isLeapYear (y : Int) : Bool :=
  (y % 4 == 0 && y % 100 != 0) || y % 400 == 0

/-- Days in 0-based month `m` of year `y`. -/
def monthDays (y : Int) (m : Nat) : Nat :=
  if m = 1 then (if isLeapYear y then 29 else 28)
  else if m = 3 ∨ m = 5 ∨ m = 8 ∨ m = 10 then 30
  else 31

def msPerDay : Nat := 86400000

/-- Length of the month in milliseconds. -/
def monthLenMs (y : Int) (m : Nat) : Nat := monthDays y m * msPerDay

/-- Length of the month in microseconds (the `created_at` granularity). -/
def monthLenUs (y : Int) (m : Nat) : Nat := monthLenMs y m * 1000

/-- A calendar instant at the store's microsecond granularity: year,
0-based month, microsecond offset within the month. -/
structure CalTime where
  year : Int
  month : Nat
  us : Nat
deriving Repr, DecidableEq

/-- A representable instant: a real month index and an offset inside the
month. -/
def validCal (t : CalTime) : Prop :=
  t.month < 12 ∧ t.us < monthLenUs t.year t.month

instance (t : CalTime) : Decidable (validCal t) := by
  unfold validCal
  infer_instance

/-- Chronological (lexicographic) order on instants: `gte`/`lte` in the SQL
conditions. -/
def calLe (a b : CalTime) : Bool :=
  decide (a.year < b.year ∨ (a.year = b.year ∧
    (a.month < b.month ∨ (a.month = b.month ∧ a.us ≤ b.us))))

/-- `new Date(year, month, 1)`: the first instant of the month. -/
def monthStartTime (y : Int) (m : Nat) : CalTime := ⟨y, m, 0⟩

/-- `new Date(year, month + 1, 0, 23, 59, 59, 999)`: day 0 of the next
month is the last day of this month at 23:59:59.999 — a millisecond-precise
`Date`, i.e. the microsecond instant `(monthLenMs - 1) * 1000`.  The last
999 µs of the month lie strictly beyond it. -/
def monthEndTime (y : Int) (m : Nat) : CalTime :=
  ⟨y, m, (monthLenMs y m - 1) * 1000⟩

/-- The projection of a `firs` row that `getMonthlyStats` reads. -/
structure FirCal where
  createdAt : CalTime
deriving Repr, DecidableEq

/-- `getMonthlyStats`: one count query per month `0 .. 11`, reported as
`(month + 1, count)`. -/
def getMonthlyStats (rows : List FirCal) (year : Int) : List (Nat × Nat) :=
  (List.range 12).map (fun month =>
    (month + 1,
      (rows.filter (fun r =>
        calLe (monthStartTime year month) r.createdAt &&
          calLe r.createdAt (monthEndTime year month))).length))

/-- Membership in a month bucket: created in that month, **at or before its
last whole millisecond** — the trailing sub-millisecond of the month fails
the upper bound. -/
theorem calLe_month_iff (y : Int) (m : Nat) (t : CalTime) :
    (calLe (monthStartTime y m) t && calLe t (monthEndTime y m)) = true ↔
      (t.year = y ∧ t.month = m ∧ t.us ≤ (monthLenMs y m - 1) * 1000) := by
  simp only [calLe, monthStartTime, monthEndTime, Bool.and_eq_true,
    decide_eq_true_eq]
  constructor
  · rintro ⟨h1, h2⟩
    refine ⟨by omega, by omega, by omega⟩
  · rintro ⟨hy, hm, hus⟩
    subst hy
    subst hm
    exact ⟨Or.inr ⟨rfl, Or.inr ⟨rfl, Nat.zero_le _⟩⟩,
      Or.inr ⟨rfl, Or.inr ⟨rfl, hus⟩⟩⟩

/-- The rows some bucket of `getMonthlyStats year` counts: created in that
year at or before their month's last whole millisecond. -/
def inYearBuckets (y : Int) (r : FirCal) : Bool :=
  r.createdAt.year == y &&
    decide (r.createdAt.us ≤
      (monthLenMs r.createdAt.year r.createdAt.month - 1) * 1000)

theorem list_sum_map_add {α : Type} (l : List α) (f g : α → Nat) :
    (l.map (fun x => f x + g x)).sum = (l.map f).sum + (l.map g).sum := by
  induction l with
  | nil => simp
  | cons x xs ih => simp [ih]; omega

theorem sum_indicator_range_zero (n j : Nat) (hj : n ≤ j) :
    ((List.range n).map (fun m => if m = j then 1 else 0)).sum = 0 := by
  induction n with
  | zero => simp
  | succ k ih =>
    rw [List.range_succ, List.map_append, List.sum_append, ih (by omega)]
    simp
    omega

theorem sum_indicator_range (n j : Nat) (hj : j < n) :
    ((List.range n).map (fun m => if m = j then 1 else 0)).sum = 1 := by
  induction n with
  | zero => omega
  | succ k ih =>
    rw [List.range_succ, List.map_append, List.sum_append]
    by_cases hk : j < k
    · rw [ih hk]
      simp
      omega
    · have hjk : j = k := by omega
      rw [sum_indicator_range_zero k j (by omega)]
      simp [hjk]

theorem month_bucket_sum (rows : List FirCal) (y : Int)
    (hv : ∀ r ∈ rows, validCal r.createdAt) :
    ((List.range 12).map (fun m => rows.countP (fun r =>
        calLe (monthStartTime y m) r.createdAt &&
          calLe r.createdAt (monthEndTime y m)))).sum =
      rows.countP (inYearBuckets y) := by
  induction rows with
  | nil => simp
  | cons r rs ih =>
    have hvr := hv r (by simp)
    have hvs : ∀ x ∈ rs, validCal x.createdAt := fun x hx => hv x (by simp [hx])
    simp only [List.countP_cons]
    rw [list_sum_map_add (List.range 12)
      (fun m => rs.countP (fun x =>
        calLe (monthStartTime y m) x.createdAt &&
          calLe x.createdAt (monthEndTime y m)))
      (fun m => if (calLe (monthStartTime y m) r.createdAt &&
          calLe r.createdAt (monthEndTime y m)) = true then 1 else 0)]
    rw [ih hvs]
    congr 1
    by_cases hy : r.createdAt.year = y
    · by_cases hus : r.createdAt.us ≤
          (monthLenMs y r.createdAt.month - 1) * 1000
      · have hmap : ∀ m ∈ List.range 12,
            (if (calLe (monthStartTime y m) r.createdAt &&
                calLe r.createdAt (monthEndTime y m)) = true then 1 else 0) =
              (if m = r.createdAt.month then 1 else 0) := by
          intro m _
          by_cases hmm : m = r.createdAt.month
          · rw [if_pos ((calLe_month_iff y m r.createdAt).2
              ⟨hy, hmm.symm, by rw [hmm]; exact hus⟩), if_pos hmm]
          · rw [if_neg hmm, if_neg]
            intro hc
            exact hmm ((calLe_month_iff y m r.createdAt).1 hc).2.1.symm
        rw [List.map_congr_left hmap,
          sum_indicator_range 12 r.createdAt.month hvr.1]
        have hin : inYearBuckets y r = true := by
          simp only [inYearBuckets, Bool.and_eq_true, beq_iff_eq,
            decide_eq_true_eq]
          exact ⟨hy, by rw [hy]; exact hus⟩
        simp [hin]
      · have hmap : ∀ m ∈ List.range 12,
            (if (calLe (monthStartTime y m) r.createdAt &&
                calLe r.createdAt (monthEndTime y m)) = true then 1 else 0) =
              0 := by
          intro m _
          rw [if_neg]
          intro hc
          obtain ⟨h1, h2, h3⟩ := (calLe_month_iff y m r.createdAt).1 hc
          subst h2
          exact hus h3
        rw [List.map_congr_left hmap]
        have hin : ¬ inYearBuckets y r = true := by
          simp only [inYearBuckets, Bool.and_eq_true, beq_iff_eq,
            decide_eq_true_eq]
          rintro ⟨h1, h2⟩
          rw [h1] at h2
          exact hus h2
        simp [hin]
    · have hmap : ∀ m ∈ List.range 12,
          (if (calLe (monthStartTime y m) r.createdAt &&
              calLe r.createdAt (monthEndTime y m)) = true then 1 else 0) =
            0 := by
        intro m _
        rw [if_neg]
        intro hc
        exact hy ((calLe_month_iff y m r.createdAt).1 hc).1
      rw [List.map_congr_left hmap]
      have hin : ¬ inYearBuckets y r = true := by
        simp only [inYearBuckets, Bool.and_eq_true, beq_iff_eq]
        rintro ⟨h1, _⟩
        exact hy h1
      simp [hin]

/-- **C8 (amended).** For every year, `getMonthlyStats` returns exactly 12
entries labelled by months 1 through 12 (months with no cases report 0);
the 12 counts sum to the number of FIRs created in that year **at or
before their month's last whole millisecond** — not to the year's total:
`created_at` carries microsecond precision while the bucket bounds are
millisecond JavaScript dates, so a FIR created in the final 999 µs of a
month escapes every bucket.  When all `created_at` values are
millisecond-aligned, the counts do sum to the year's total. -/
theorem getMonthlyStats_spec (rows : List FirCal) (year : Int)
    (hv : ∀ r ∈ rows, validCal r.createdAt) :
    (getMonthlyStats rows year).length = 12 ∧
    (getMonthlyStats rows year).map Prod.fst =
      [1, 2, 3, 4, 5, 6, 7, 8, 9, 10, 11, 12] ∧
    ((getMonthlyStats rows year).map Prod.snd).sum =
      (rows.filter (inYearBuckets year)).length ∧
    ((∀ r ∈ rows, r.createdAt.us % 1000 = 0) →
      ((getMonthlyStats rows year).map Prod.snd).sum =
        (rows.filter (fun r => r.createdAt.year == year)).length) := by
  have hsum : ((getMonthlyStats rows year).map Prod.snd).sum =
      (rows.filter (inYearBuckets year)).length := by
    simp only [getMonthlyStats, List.map_map]
    have hcomp : (Prod.snd ∘ fun month => (month + 1,
        (rows.filter (fun r => calLe (monthStartTime year month) r.createdAt &&
          calLe r.createdAt (monthEndTime year month))).length)) =
        fun month => rows.countP (fun r =>
          calLe (monthStartTime year month) r.createdAt &&
            calLe r.createdAt (monthEndTime year month)) := by
      funext month
      simp [List.countP_eq_length_filter]
    rw [hcomp, month_bucket_sum rows year hv, List.countP_eq_length_filter]
  refine ⟨by simp [getMonthlyStats], ?_, hsum, ?_⟩
  · simp only [getMonthlyStats, List.map_map]
    rfl
  · intro haligned
    rw [hsum]
    congr 1
    apply List.filter_congr
    intro r hr
    obtain ⟨hm12, husv⟩ := hv r hr
    simp only [monthLenUs] at husv
    have hA := haligned r hr
    by_cases hy : r.createdAt.year = year
    · have hb : (r.createdAt.year == year) = true := beq_iff_eq.2 hy
      have h2 : r.createdAt.us ≤
          (monthLenMs r.createdAt.year r.createdAt.month - 1) * 1000 := by
        omega
      simp [inYearBuckets, hb, h2]
    · have hb : (r.createdAt.year == year) = false := beq_eq_false_iff_ne.2 hy
      simp [inYearBuckets, hb]

def c8Rows : List FirCal :=
  [⟨⟨2024, 0, 5000⟩⟩, ⟨⟨2024, 1, 0⟩⟩, ⟨⟨2023, 5, 3000⟩⟩]

/-- Witness for the amended C8 on three millisecond-aligned rows, two of
them created in 2024. -/
theorem getMonthlyStats_spec_witness :
    (∀ r ∈ c8Rows, validCal r.createdAt) ∧
    (∀ r ∈ c8Rows, r.createdAt.us % 1000 = 0) ∧
    ((getMonthlyStats c8Rows 2024).length = 12 ∧
      (getMonthlyStats c8Rows 2024).map Prod.fst =
        [1, 2, 3, 4, 5, 6, 7, 8, 9, 10, 11, 12] ∧
      ((getMonthlyStats c8Rows 2024).map Prod.snd).sum =
        (c8Rows.filter (inYearBuckets 2024)).length) ∧
    ((getMonthlyStats c8Rows 2024).map Prod.snd).sum =
      (c8Rows.filter (fun r => r.createdAt.year == 2024)).length :=
  ⟨by decide, by decide,
   ⟨(getMonthlyStats_spec c8Rows 2024 (by decide)).1,
    (getMonthlyStats_spec c8Rows 2024 (by decide)).2.1,
    (getMonthlyStats_spec c8Rows 2024 (by decide)).2.2.1⟩,
   (getMonthlyStats_spec c8Rows 2024 (by decide)).2.2.2 (by decide)⟩

/-- December 31, 2024 at 23:59:59.9995: a representable `created_at`
strictly between the month's last whole millisecond and the next month. -/
def c8GapTime : CalTime := ⟨2024, 11, (monthLenMs 2024 11 - 1) * 1000 + 500⟩

def c8GapRows : List FirCal := [⟨c8GapTime⟩]

/-- **C8 (counterexample).** A FIR created in the final sub-millisecond of
December 2024 falls in no monthly bucket: the 12 counts sum to 0 while the
number of FIRs created in 2024 is 1, so the claimed sum-to-year-total is
false of the program. -/
theorem getMonthlyStats_sum_counterexample :
    validCal c8GapTime ∧
    ((getMonthlyStats c8GapRows 2024).map Prod.snd).sum = 0 ∧
    (c8GapRows.filter (fun r => r.createdAt.year == 2024)).length = 1 ∧
    ¬ (((getMonthlyStats c8GapRows 2024).map Prod.snd).sum =
        (c8GapRows.filter (fun r => r.createdAt.year == 2024)).length) := by
  refine ⟨by decide, by decide, by decide, by decide⟩

/-! ## Extraction pipeline (`POST /api/gemini/process`, `server/routes.ts`)

The endpoint asks the model for JSON, extracts a substring with the greedy
regex `\x5c\x7b[\s\S]*\x5c\x7d` (first opening brace through the *last*
closing brace), runs `JSON.parse` on it, validates with
`geminiResponseSchema`, and retries up to three attempts.  `JSON.parse` is
modeled by a fuel-driven strict JSON parser over characters; numbers are
rationals (JavaScript numbers at the magnitudes involved), and exponent
notation and `\u` escapes are not modeled. -/

def lbrace : Char := Char.ofNat 123

def rbrace : Char := Char.ofNat 125

/-- A JavaScript number as `JSON.parse` produces it from a decimal literal:
signed mantissa and number of fraction digits, denoting
`mant / 10 ^ exp10`.  Kept unnormalized so that comparisons are plain
integer arithmetic. -/
structure DecNum where
  mant : Int
  exp10 : Nat
deriving Repr, DecidableEq

/-- The rational value of a parsed number (specification view). -/
def DecNum.toRat (n : DecNum) : ℚ := (n.mant : ℚ) / (10 : ℚ) ^ n.exp10

/-- `n ≤ k` by cross-multiplication: `mant / 10^e ≤ k ↔ mant ≤ k * 10^e`. -/
def DecNum.leInt (n : DecNum) (k : Int) : Bool :=
  decide (n.mant ≤ k * 10 ^ n.exp10)

/-- `k ≤ n` by cross-multiplication. -/
def DecNum.intLe (k : Int) (n : DecNum) : Bool :=
  decide (k * 10 ^ n.exp10 ≤ n.mant)

theorem decNum_intLe_iff (k : Int) (n : DecNum) :
    DecNum.intLe k n = true ↔ (k : ℚ) ≤ n.toRat := by
  rw [DecNum.intLe, decide_eq_true_eq, DecNum.toRat,
    le_div_iff₀ (by positivity : (0 : ℚ) < (10 : ℚ) ^ n.exp10)]
  constructor
  · intro h
    exact_mod_cast h
  · intro h
    exact_mod_cast h

theorem decNum_leInt_iff (n : DecNum) (k : Int) :
    DecNum.leInt n k = true ↔ n.toRat ≤ (k : ℚ) := by
  rw [DecNum.leInt, decide_eq_true_eq, DecNum.toRat,
    div_le_iff₀ (by positivity : (0 : ℚ) < (10 : ℚ) ^ n.exp10)]
  constructor
  · intro h
    exact_mod_cast h
  · intro h
    exact_mod_cast h

/-- A parsed JSON value. -/
inductive JsonVal where
  | null
  | bool (b : Bool)
  | num (q : DecNum)
  | str (s : String)
  | arr (xs : List JsonVal)
  | obj (kvs : List (String × JsonVal))

/-- JSON insignificant whitespace. -/
def skipWs : List Char → List Char
  | [] => []
  | c :: cs =>
    if c = ' ' ∨ c = '\n' ∨ c = '\t' ∨ c = '\r' then skipWs cs else c :: cs

/-- Parse the body of a JSON string after the opening quote; returns the
content and the remainder after the closing quote. -/
def parseStringAux : List Char → List Char → Option (List Char × List Char)
  | _, [] => none
  | acc, c :: cs =>
    if c = '"' then some (acc.reverse, cs)
    else if c = '\\' then
      match cs with
      | [] => none
      | e :: cs2 =>
        if e = '"' then parseStringAux ('"' :: acc) cs2
        else if e = '\\' then parseStringAux ('\\' :: acc) cs2
        else if e = '/' then parseStringAux ('/' :: acc) cs2
        else if e = 'n' then parseStringAux ('\n' :: acc) cs2
        else if e = 't' then parseStringAux ('\t' :: acc) cs2
        else if e = 'r' then parseStringAux ('\r' :: acc) cs2
        else none
    else parseStringAux (c :: acc) cs

def digitsToNat (ds : List Char) : Nat :=
  ds.foldl (fun n c => n * 10 + (c.toNat - 48)) 0

/-- Parse a JSON number (optional minus, digits, optional fraction). -/
def parseNumber (cs : List Char) : Option (DecNum × List Char) :=
  let negRest : Bool × List Char :=
    match cs with
    | '-' :: rest => (true, rest)
    | _ => (false, cs)
  let intSpan := negRest.2.span (·.isDigit)
  if intSpan.1.isEmpty then none
  else
    match intSpan.2 with
    | '.' :: cs3 =>
      let fracSpan := cs3.span (·.isDigit)
      if fracSpan.1.isEmpty then none
      else
        let mantissa : Int := (digitsToNat (intSpan.1 ++ fracSpan.1) : Int)
        some (⟨if negRest.1 then -mantissa else mantissa, fracSpan.1.length⟩,
          fracSpan.2)
    | rest =>
      let n : Int := (digitsToNat intSpan.1 : Int)
      some (⟨if negRest.1 then -n else n, 0⟩, rest)

/-- What the recursive parser is currently building. -/
inductive PMode where
  | val
  | elems (acc : List JsonVal)
  | members (acc : List (String × JsonVal))

inductive PRes where
  | v (x : JsonVal)
  | vs (xs : List JsonVal)
  | kvs (l : List (String × JsonVal))

/-- The recursive descent: values, array elements, object members, driven
by fuel (one unit per nested parse, bounded by the input length). -/
def parseF (oracleFuel : Nat) : PMode → List Char → Option (PRes × List Char) :=
  match oracleFuel with
  | 0 => fun _ _ => none
  | fuel + 1 => fun mode cs =>
    match mode with
    | .val =>
      match skipWs cs with
      | [] => none
      | c :: rest =>
        if c = '"' then
          (parseStringAux [] rest).map (fun p => (.v (.str (String.mk p.1)), p.2))
        else if c = lbrace then
          match parseF fuel (.members []) rest with
          | some (.kvs l, r) => some (.v (.obj l), r)
          | _ => none
        else if c = '[' then
          match parseF fuel (.elems []) rest with
          | some (.vs l, r) => some (.v (.arr l), r)
          | _ => none
        else
          match c :: rest with
          | 't' :: 'r' :: 'u' :: 'e' :: r => some (.v (.bool true), r)
          | 'f' :: 'a' :: 'l' :: 's' :: 'e' :: r => some (.v (.bool false), r)
          | 'n' :: 'u' :: 'l' :: 'l' :: r => some (.v .null, r)
          | other => (parseNumber other).map (fun p => (.v (.num p.1), p.2))
    | .elems acc =>
      match skipWs cs with
      | [] => none
      | c :: rest =>
        if c = ']' ∧ acc.isEmpty then some (.vs [], rest)
        else
          match parseF fuel .val (c :: rest) with
          | some (.v x, r1) =>
            match skipWs r1 with
            | ',' :: r2 => parseF fuel (.elems (acc ++ [x])) r2
            | ']' :: r2 => some (.vs (acc ++ [x]), r2)
            | _ => none
          | _ => none
    | .members acc =>
      match skipWs cs with
      | [] => none
      | c :: rest =>
        if c = rbrace ∧ acc.isEmpty then some (.kvs [], rest)
        else if c = '"' then
          match parseStringAux [] rest with
          | some (k, r1) =>
            match skipWs r1 with
            | ':' :: r2 =>
              match parseF fuel .val r2 with
              | some (.v x, r3) =>
                match skipWs r3 with
                | ',' :: r4 => parseF fuel (.members (acc ++ [(String.mk k, x)])) r4
                | c5 :: r4 =>
                  if c5 = rbrace then some (.kvs (acc ++ [(String.mk k, x)]), r4)
                  else none
                | _ => none
              | _ => none
            | _ => none
          | none => none
        else none

/-- `JSON.parse`: one value, with nothing but whitespace after it. -/
def jsonParse (s : String) : Option JsonVal :=
  match parseF (s.length + 2) .val s.data with
  | some (.v x, rest) => if (skipWs rest).isEmpty then some x else none
  | _ => none

/-! ### `geminiResponseSchema` (`shared/schema.ts`) -/

/-- The validated shape: `z.object(\x7b crime: z.string(), ipcSections:
z.array(z.string()), summary: z.string(), priority:
z.number().min(1).max(5), dateTime: z.string().optional(), location:
z.string().optional() \x7d)`. -/
structure GeminiResponse where
  crime : String
  ipcSections : List String
  summary : String
  priority : DecNum
  dateTime : Option String
  location : Option String
deriving Repr, DecidableEq

/-- Key lookup in a parsed object; `JSON.parse` keeps the last duplicate. -/
def jsObjGet (kvs : List (String × JsonVal)) (k : String) : Option JsonVal :=
  kvs.reverse.lookup k

def asString : JsonVal → Option String
  | .str s => some s
  | _ => none

def asStringList : JsonVal → Option (List String)
  | .arr xs => xs.mapM asString
  | _ => none

def asNumber : JsonVal → Option DecNum
  | .num q => some q
  | _ => none

/-- `z.string().optional()`: an absent key is fine; a present value must be
a string (null fails). -/
def optStringField (kvs : List (String × JsonVal)) (k : String) :
    Option (Option String) :=
  match jsObjGet kvs k with
  | none => some none
  | some v => (asString v).map some

/-- `geminiResponseSchema.parse`: `none` models a thrown `ZodError`.  Note
`z.array(z.string())` accepts the empty array and `z.number().min(1).max(5)`
accepts non-integers. -/
def geminiResponseParse (v : JsonVal) : Option GeminiResponse :=
  match v with
  | .obj kvs => do
    let crime ← (jsObjGet kvs "crime").bind asString
    let ipc ← (jsObjGet kvs "ipcSections").bind asStringList
    let summary ← (jsObjGet kvs "summary").bind asString
    let pr ← (jsObjGet kvs "priority").bind asNumber
    if DecNum.intLe 1 pr && DecNum.leInt pr 5 then
      let dt ← optStringField kvs "dateTime"
      let loc ← optStringField kvs "location"
      pure { crime := crime, ipcSections := ipc, summary := summary,
             priority := pr, dateTime := dt, location := loc }
    else none
  | _ => none

/-! ### The brace-span scan -/

def firstIdx (p : Char → Bool) : List Char → Option Nat
  | [] => none
  | c :: cs => if p c then some 0 else (firstIdx p cs).map (· + 1)

def lastIdx (p : Char → Bool) (cs : List Char) : Option Nat :=
  (firstIdx p cs.reverse).map (fun i => cs.length - 1 - i)

/-- `responseText.match(/\x5c\x7b[\s\S]*\x5c\x7d/)`: the greedy match runs
from the first opening brace to the last closing brace (it must lie after
the opening one), or fails. -/
def extractSpan (t : String) : Option String :=
  let cs := t.data
  match firstIdx (· == lbrace) cs, lastIdx (· == rbrace) cs with
  | some i, some j =>
    if i < j then some (String.mk ((cs.drop i).take (j - i + 1))) else none
  | _, _ => none

/-- Modelled from the spec: "The raw model output is scanned for the first
balanced `\x7b...\x7d` block" — absent from the code, which uses the greedy
regex above.  Scans to the first `\x7b` and returns the prefix up to the
brace-depth-balancing `\x7d`. -/
def balancedFrom : Nat → List Char → List Char → Option (List Char)
  | _, _, [] => none
  | depth, acc, c :: cs =>
    if c = lbrace then balancedFrom (depth + 1) (c :: acc) cs
    else if c = rbrace then
      if depth = 1 then some (c :: acc).reverse
      else balancedFrom (depth - 1) (c :: acc) cs
    else balancedFrom depth (c :: acc) cs

/-- Modelled from the spec: the first balanced brace block of the output. -/
def firstBalancedBlock : List Char → Option String
  | [] => none
  | c :: cs =>
    if c = lbrace then (balancedFrom 1 [c] cs).map String.mk
    else firstBalancedBlock cs

/-! ### The retry loop -/

/-- The outcome of one `model.generateContent` call: a reply text, or a
thrown error. -/
inductive GenReply where
  | text (t : String)
  | err

/-- What one attempt of the loop body does with a reply. -/
inductive AttemptOutcome where
  | success (g : GeminiResponse)
  | noMatch
  | threw
deriving DecidableEq

/-- One attempt: a thrown request, a reply with no brace span (the
`!jsonMatch` branch, which retries with **no** delay), or a span that is
parsed and validated — any parse/validation throw lands in the `catch`
(which sleeps 1 s before retrying). -/
def attemptOf (r : GenReply) : AttemptOutcome :=
  match r with
  | .err => .threw
  | .text t =>
    match extractSpan t with
    | none => .noMatch
    | some sub =>
      match jsonParse sub with
      | none => .threw
      | some v =>
        match geminiResponseParse v with
        | none => .threw
        | some g => .success g

inductive LoopExit where
  | ok (g : GeminiResponse)
  | parseFailure
  | processFailure
  | fellThrough
deriving DecidableEq

/-- The `while (attempts < maxAttempts)` loop.  `fuel` is the number of
attempts still allowed (`maxAttempts - attempts`), `a` the attempts made so
far, `d` the delays slept so far (in ms).  Attempt `a + 1` reads
`oracle a`.  The code checks `attempts >= maxAttempts` after incrementing,
i.e. `fuel = 0` after this attempt. -/
def geminiLoop (oracle : Nat → GenReply) :
    Nat → Nat → List Nat → LoopExit × Nat × List Nat
  | 0, a, d => (.fellThrough, a, d)
  | fuel + 1, a, d =>
    match attemptOf (oracle a) with
    | .success g => (.ok g, a + 1, d)
    | .noMatch =>
      if fuel = 0 then (.parseFailure, a + 1, d)
      else geminiLoop oracle fuel (a + 1) d
    | .threw =>
      if fuel = 0 then (.processFailure, a + 1, d)
      else geminiLoop oracle fuel (a + 1) (d ++ [1000])

inductive GeminiResult where
  | ok (g : GeminiResponse) (firId : String)
  | parseFailure
  | processFailure
  | undefinedResponse (firId : String)
deriving DecidableEq

/-- The endpoint body: run the loop with `maxAttempts = 3`, then attach a
freshly generated id to the response.  `undefinedResponse` is what the code
would send if the loop ever exited with no response set (it cannot — see
the specification theorem). -/
def geminiProcess (oracle : Nat → GenReply) (freshId : String) :
    GeminiResult × Nat × List Nat :=
  match geminiLoop oracle 3 0 [] with
  | (.ok g, a, d) => (.ok g freshId, a, d)
  | (.parseFailure, a, d) => (.parseFailure, a, d)
  | (.processFailure, a, d) => (.processFailure, a, d)
  | (.fellThrough, a, d) => (.undefinedResponse freshId, a, d)

/-- The delays the loop records for `n` consecutive non-final attempts
starting at attempt index `lo`: 1000 ms after each attempt that threw,
nothing after a no-match attempt. -/
def delaysUpTo (oracle : Nat → GenReply) : Nat → Nat → List Nat
  | _, 0 => []
  | lo, n + 1 =>
    (if attemptOf (oracle lo) = .threw then [1000] else []) ++
      delaysUpTo oracle (lo + 1) n

theorem delaysUpTo_mem (oracle : Nat → GenReply) :
    ∀ lo n, ∀ x ∈ delaysUpTo oracle lo n, x = 1000 := by
  intro lo n
  induction n generalizing lo with
  | zero => simp [delaysUpTo]
  | succ k ih =>
    intro x hx
    simp only [delaysUpTo, List.mem_append] at hx
    rcases hx with hx | hx
    · by_cases hc : attemptOf (oracle lo) = .threw <;> simp [hc] at hx
      omega
    · exact ih (lo + 1) x hx

/-- Full characterization of one run of the loop. -/
theorem geminiLoop_spec (oracle : Nat → GenReply) :
    ∀ (fuel a : Nat) (d : List Nat), 1 ≤ fuel →
    (geminiLoop oracle fuel a d).1 ≠ .fellThrough ∧
    a < (geminiLoop oracle fuel a d).2.1 ∧
    (geminiLoop oracle fuel a d).2.1 ≤ a + fuel ∧
    (geminiLoop oracle fuel a d).2.2 =
      d ++ delaysUpTo oracle a ((geminiLoop oracle fuel a d).2.1 - 1 - a) ∧
    (∀ g, (geminiLoop oracle fuel a d).1 = .ok g →
      attemptOf (oracle ((geminiLoop oracle fuel a d).2.1 - 1)) = .success g) ∧
    ((geminiLoop oracle fuel a d).1 = .parseFailure →
      attemptOf (oracle ((geminiLoop oracle fuel a d).2.1 - 1)) = .noMatch ∧
        (geminiLoop oracle fuel a d).2.1 = a + fuel) ∧
    ((geminiLoop oracle fuel a d).1 = .processFailure →
      attemptOf (oracle ((geminiLoop oracle fuel a d).2.1 - 1)) = .threw ∧
        (geminiLoop oracle fuel a d).2.1 = a + fuel) := by
  intro fuel
  induction fuel with
  | zero => intro a d h; omega
  | succ f ih =>
    intro a d _
    cases hout : attemptOf (oracle a) with
    | success g =>
      simp only [geminiLoop, hout]
      refine ⟨by simp, by omega, by omega, ?_, ?_, by simp, by simp⟩
      · simp [delaysUpTo]
      · intro g' hg'
        simp only [LoopExit.ok.injEq] at hg'
        subst hg'
        simpa using hout
    | noMatch =>
      by_cases hf : f = 0
      · subst hf
        simp only [geminiLoop, hout, eq_self_iff_true, if_true]
        refine ⟨by simp, by omega, by omega, by simp [delaysUpTo], ?_, ?_, by simp⟩
        · intro g hg
          simp at hg
        · intro _
          simpa using hout
      · have hf1 : 1 ≤ f := by omega
        simp only [geminiLoop, hout, if_neg hf]
        obtain ⟨hne, hlt, hle, hd, hok, hpf, hprf⟩ := ih (a + 1) d hf1
        have hcount : (geminiLoop oracle f (a + 1) d).2.1 - 1 - a =
            ((geminiLoop oracle f (a + 1) d).2.1 - 1 - (a + 1)) + 1 := by omega
        refine ⟨hne, by omega, by omega, ?_, hok, ?_, ?_⟩
        · rw [hd, hcount]
          simp [delaysUpTo, hout]
        · intro hx
          obtain ⟨h1, h2⟩ := hpf hx
          exact ⟨h1, by omega⟩
        · intro hx
          obtain ⟨h1, h2⟩ := hprf hx
          exact ⟨h1, by omega⟩
    | threw =>
      by_cases hf : f = 0
      · subst hf
        simp only [geminiLoop, hout, eq_self_iff_true, if_true]
        refine ⟨by simp, by omega, by omega, by simp [delaysUpTo], ?_, by simp, ?_⟩
        · intro g hg
          simp at hg
        · intro _
          simpa using hout
      · have hf1 : 1 ≤ f := by omega
        simp only [geminiLoop, hout, if_neg hf]
        obtain ⟨hne, hlt, hle, hd, hok, hpf, hprf⟩ := ih (a + 1) (d ++ [1000]) hf1
        have hcount : (geminiLoop oracle f (a + 1) (d ++ [1000])).2.1 - 1 - a =
            ((geminiLoop oracle f (a + 1) (d ++ [1000])).2.1 - 1 - (a + 1)) + 1 := by
          omega
        refine ⟨hne, by omega, by omega, ?_, hok, ?_, ?_⟩
        · rw [hd, hcount]
          simp [delaysUpTo, hout]
        · intro hx
          obtain ⟨h1, h2⟩ := hpf hx
          exact ⟨h1, by omega⟩
        · intro hx
          obtain ⟨h1, h2⟩ := hprf hx
          exact ⟨h1, by omega⟩

theorem geminiResponseParse_priority (v : JsonVal) (g : GeminiResponse)
    (h : geminiResponseParse v = some g) :
    1 ≤ g.priority.toRat ∧ g.priority.toRat ≤ 5 := by
  cases v with
  | obj kvs =>
    simp only [geminiResponseParse, Option.bind_eq_bind] at h
    obtain ⟨crime, hcrime, h⟩ := Option.bind_eq_some.1 h
    obtain ⟨ipc, hipc, h⟩ := Option.bind_eq_some.1 h
    obtain ⟨summary, hsum, h⟩ := Option.bind_eq_some.1 h
    obtain ⟨pr, hpr, h⟩ := Option.bind_eq_some.1 h
    by_cases hok : (DecNum.intLe 1 pr && DecNum.leInt pr 5) = true
    · rw [if_pos hok] at h
      obtain ⟨dt, hdt, h⟩ := Option.bind_eq_some.1 h
      obtain ⟨loc, hloc, h⟩ := Option.bind_eq_some.1 h
      simp only [pure, Option.some.injEq] at h
      rw [Bool.and_eq_true] at hok
      have h1 := (decNum_intLe_iff 1 pr).1 hok.1
      have h5 := (decNum_leInt_iff pr 5).1 hok.2
      push_cast at h1 h5
      rw [← h]
      exact ⟨h1, h5⟩
    · rw [if_neg hok] at h
      simp at h
  | null => simp [geminiResponseParse] at h
  | bool b => simp [geminiResponseParse] at h
  | num q => simp [geminiResponseParse] at h
  | str s => simp [geminiResponseParse] at h
  | arr xs => simp [geminiResponseParse] at h

/-- A successful attempt decomposes into reply text, greedy span, JSON
parse and schema validation. -/
theorem attemptOf_success (r : GenReply) (g : GeminiResponse)
    (h : attemptOf r = .success g) :
    ∃ t sub v, r = .text t ∧ extractSpan t = some sub ∧
      jsonParse sub = some v ∧ geminiResponseParse v = some g := by
  cases r with
  | err => simp [attemptOf] at h
  | text t =>
    simp only [attemptOf] at h
    cases hspan : extractSpan t with
    | none => simp [hspan] at h
    | some sub =>
      simp only [hspan] at h
      cases hjson : jsonParse sub with
      | none => simp [hjson] at h
      | some v =>
        simp only [hjson] at h
        cases hval : geminiResponseParse v with
        | none => simp [hval] at h
        | some g2 =>
          simp only [hval, AttemptOutcome.success.injEq] at h
          exact ⟨t, sub, v, rfl, hspan, hjson, by rw [hval, h]⟩

/-- **C5 (amended).** For every oracle: the endpoint makes between 1 and 3
attempts; every recorded delay is the fixed 1000 ms, but a delay is slept
only after an attempt that threw (request, `JSON.parse`, or validation
error) — a reply with no brace span retries immediately with no delay; the
loop never exits without a response; both error exits happen only on the
third attempt and return an error message with no structured data; on
success the fresh identifier is attached and the last attempt validated. -/
theorem geminiProcess_retry_discipline (oracle : Nat → GenReply) (freshId : String) :
    1 ≤ (geminiProcess oracle freshId).2.1 ∧
    (geminiProcess oracle freshId).2.1 ≤ 3 ∧
    (geminiProcess oracle freshId).2.2 =
      delaysUpTo oracle 0 ((geminiProcess oracle freshId).2.1 - 1) ∧
    (∀ x ∈ (geminiProcess oracle freshId).2.2, x = 1000) ∧
    (∀ fid, (geminiProcess oracle freshId).1 ≠ .undefinedResponse fid) ∧
    ((geminiProcess oracle freshId).1 = .parseFailure →
      (geminiProcess oracle freshId).2.1 = 3 ∧ attemptOf (oracle 2) = .noMatch) ∧
    ((geminiProcess oracle freshId).1 = .processFailure →
      (geminiProcess oracle freshId).2.1 = 3 ∧ attemptOf (oracle 2) = .threw) ∧
    (∀ g fid, (geminiProcess oracle freshId).1 = .ok g fid → fid = freshId ∧
      attemptOf (oracle ((geminiProcess oracle freshId).2.1 - 1)) = .success g) := by
  obtain ⟨hne, hlt, hle, hd, hok, hpf, hprf⟩ :=
    geminiLoop_spec oracle 3 0 [] (by omega)
  rcases hloop : geminiLoop oracle 3 0 [] with ⟨exit, a, d⟩
  rw [hloop] at hne hlt hle hd hok hpf hprf
  dsimp only at hne hlt hle hd hok hpf hprf
  simp only [List.nil_append, Nat.sub_zero] at hd
  unfold geminiProcess
  rw [hloop]
  cases exit with
  | ok g =>
    dsimp only
    refine ⟨by omega, by omega, hd, ?_, by simp, by simp, by simp, ?_⟩
    · intro x hx
      rw [hd] at hx
      exact delaysUpTo_mem oracle 0 _ x hx
    · intro g' fid' hg'
      simp only [GeminiResult.ok.injEq] at hg'
      exact ⟨hg'.2.symm, by rw [← hg'.1]; exact hok g rfl⟩
  | parseFailure =>
    dsimp only
    obtain ⟨ho, ha⟩ := hpf rfl
    refine ⟨by omega, by omega, hd, ?_, by simp, ?_, by simp, by simp⟩
    · intro x hx
      rw [hd] at hx
      exact delaysUpTo_mem oracle 0 _ x hx
    · intro _
      refine ⟨by omega, ?_⟩
      have h2 : a - 1 = 2 := by omega
      rw [h2] at ho
      exact ho
  | processFailure =>
    dsimp only
    obtain ⟨ho, ha⟩ := hprf rfl
    refine ⟨by omega, by omega, hd, ?_, by simp, by simp, ?_, by simp⟩
    · intro x hx
      rw [hd] at hx
      exact delaysUpTo_mem oracle 0 _ x hx
    · intro _
      refine ⟨by omega, ?_⟩
      have h2 : a - 1 = 2 := by omega
      rw [h2] at ho
      exact ho
  | fellThrough => exact absurd rfl hne

/-- Three replies with no JSON object at all. -/
def c5NoJsonOracle : Nat → GenReply := fun _ => .text "no structured output"

/-- **C5 (counterexample).** When every reply lacks a brace span, the code
makes all 3 attempts and fails, but sleeps no delay at all (the `continue`
branch skips the 1-second wait): the claimed fixed delay between attempts
does not happen. -/
theorem gemini_fixed_delay_counterexample :
    geminiProcess c5NoJsonOracle "FIR-20260101-111" = (.parseFailure, 3, []) ∧
    (geminiProcess c5NoJsonOracle "FIR-20260101-111").2.2 ≠ [1000, 1000] := by
  constructor
  · decide
  · decide

/-- Witness for the amended C5 at a concrete oracle. -/
theorem geminiProcess_retry_discipline_witness :
    1 ≤ (geminiProcess c5NoJsonOracle "FIR-20260101-111").2.1 ∧
    (geminiProcess c5NoJsonOracle "FIR-20260101-111").2.1 ≤ 3 :=
  ⟨(geminiProcess_retry_discipline c5NoJsonOracle "FIR-20260101-111").1,
   (geminiProcess_retry_discipline c5NoJsonOracle "FIR-20260101-111").2.1⟩

/-- **C4 (amended).** On every successful run, the substring from the
first opening brace to the last closing brace of the final attempt's raw
output parses as JSON and passes `geminiResponseSchema`, and the fresh
identifier is attached.  The schema guarantees the field types and
`1 ≤ priority ≤ 5`; it does **not** require `ipcSections` to be non-empty
nor `priority` to be an integer, and the scanned substring is the greedy
brace span, not the first balanced block. -/
theorem geminiProcess_success_schema (oracle : Nat → GenReply) (freshId : String)
    (g : GeminiResponse) (fid : String) (a : Nat) (d : List Nat)
    (h : geminiProcess oracle freshId = (.ok g fid, a, d)) :
    fid = freshId ∧
    (∃ t sub v, oracle (a - 1) = .text t ∧ extractSpan t = some sub ∧
      jsonParse sub = some v ∧ geminiResponseParse v = some g) ∧
    1 ≤ g.priority.toRat ∧ g.priority.toRat ≤ 5 := by
  obtain ⟨hne, hlt, hle, hd, hok, hpf, hprf⟩ :=
    geminiLoop_spec oracle 3 0 [] (by omega)
  rcases hloop : geminiLoop oracle 3 0 [] with ⟨exit, a', d'⟩
  rw [hloop] at hne hlt hle hd hok hpf hprf
  dsimp only at hne hlt hle hd hok hpf hprf
  unfold geminiProcess at h
  rw [hloop] at h
  cases exit with
  | ok g0 =>
    dsimp only at h
    simp only [Prod.mk.injEq, GeminiResult.ok.injEq] at h
    obtain ⟨⟨hg0, hfid⟩, ha', hd'⟩ := h
    have hsucc : attemptOf (oracle (a - 1)) = .success g := by
      have h0 := hok g0 rfl
      rw [ha', hg0] at h0
      exact h0
    obtain ⟨t, sub, v, hr, hspan, hjson, hval⟩ := attemptOf_success _ _ hsucc
    exact ⟨hfid.symm, ⟨t, sub, v, hr, hspan, hjson, hval⟩,
      geminiResponseParse_priority v g hval⟩
  | parseFailure =>
    dsimp only at h
    simp at h
  | processFailure =>
    dsimp only at h
    simp at h
  | fellThrough => exact absurd rfl hne

def c4GoodText : String :=
  "\x7b\"crime\":\"theft\",\"ipcSections\":[\"IPC 379\"],\"summary\":\"stolen bicycle\",\"priority\":3\x7d"

def c4GoodOracle : Nat → GenReply := fun _ => .text c4GoodText

def c4GoodResp : GeminiResponse :=
  { crime := "theft", ipcSections := ["IPC 379"], summary := "stolen bicycle",
    priority := ⟨3, 0⟩, dateTime := none, location := none }

/-- Witness for the amended C4: a fully valid reply succeeds on the first
attempt and the parsed response round-trips through span, parse and
validation. -/
theorem geminiProcess_success_schema_witness :
    geminiProcess c4GoodOracle "FIR-20260101-222" =
      (.ok c4GoodResp "FIR-20260101-222", 1, []) ∧
    (("FIR-20260101-222" : String) = "FIR-20260101-222" ∧
      (∃ t sub v, c4GoodOracle 0 = .text t ∧ extractSpan t = some sub ∧
        jsonParse sub = some v ∧ geminiResponseParse v = some c4GoodResp) ∧
      1 ≤ c4GoodResp.priority.toRat ∧ c4GoodResp.priority.toRat ≤ 5) :=
  ⟨by decide,
   geminiProcess_success_schema c4GoodOracle "FIR-20260101-222" c4GoodResp
     "FIR-20260101-222" 1 [] (by decide)⟩

def c4BadText : String :=
  "\x7b\"crime\":\"theft\",\"ipcSections\":[],\"summary\":\"s\",\"priority\":2.5\x7d"

def c4BadOracle : Nat → GenReply := fun _ => .text c4BadText

def c4BadResp : GeminiResponse :=
  { crime := "theft", ipcSections := [], summary := "s", priority := ⟨25, 1⟩,
    dateTime := none, location := none }

def c4TrailText : String := c4GoodText ++ " \x7b\"note\":1\x7d"

def c4TrailOracle : Nat → GenReply := fun _ => .text c4TrailText

/-- **C4 (counterexample).**  (a) A reply whose JSON carries an empty
`ipcSections` array and the non-integer priority 2.5 validates and is
returned as a success — the claimed schema (non-empty sections, integer
priority) is not what the code enforces.  (b) A reply whose *first
balanced* brace block is a perfectly valid response still fails all three
attempts: the code scans greedily to the *last* closing brace, and
`JSON.parse` rejects that span. -/
theorem gemini_schema_counterexample :
    (geminiProcess c4BadOracle "FIR-20260101-333" =
        (.ok c4BadResp "FIR-20260101-333", 1, []) ∧
      c4BadResp.ipcSections = [] ∧
      DecNum.toRat c4BadResp.priority = 5 / 2 ∧
      ¬ ∃ k : ℤ, DecNum.toRat c4BadResp.priority = (k : ℚ)) ∧
    (firstBalancedBlock c4TrailText.data = some c4GoodText ∧
      (jsonParse c4GoodText).bind geminiResponseParse = some c4GoodResp ∧
      geminiProcess c4TrailOracle "FIR-20260101-333" =
        (.processFailure, 3, [1000, 1000])) := by
  have htr : DecNum.toRat c4BadResp.priority = 5 / 2 := by
    norm_num [DecNum.toRat, c4BadResp]
  refine ⟨⟨by decide, by decide, htr, ?_⟩, ⟨by decide, by decide, by decide⟩⟩
  rintro ⟨k, hk⟩
  rw [htr] at hk
  have h25 : (5 : ℚ) = (k : ℚ) * 2 := by
    field_simp at hk
    linarith
  have h25z : (5 : ℤ) = k * 2 := by exact_mod_cast h25
  omega

end FirAgent
